import Mathlib

/-!
# Verification of the bsatk BSA/BA2 archive library

A shallow embedding, in Lean 4, of the parts of the `bsatk` library
(ModOrganizer2/modorganizer-bsatk) that its specification makes claims
about: the multi-format header reader, the folder-tree construction,
the compression predicate, the DDS header synthesizer, the single-file
and bulk extraction paths, and the two-pass archive writer.

Machine integers are modelled as `Nat` with explicit `% 2^w`
reductions where the C++ code relies on unsigned wraparound.  Byte
streams (`std::fstream`) are modelled as a list of bytes together with
a read position; a read past the end of the data is modelled as a
parse error (the C++ code configures the stream to throw on failure
and the `read` entry point converts such failures into the
`ERROR_INVALIDDATA` status).  External compression primitives (zlib
inflate, LZ4 frame- and block-decompression) are taken as function
parameters, mirroring the specification's decision to treat them as
library calls.
-/

namespace BSATK

/-- Error codes of `errorcodes.h` (the closed status enum of §6 of the
specification). -/
inductive EErrorCode where
  | ERROR_NONE
  | ERROR_FILENOTFOUND
  | ERROR_ACCESSFAILED
  | ERROR_INVALIDDATA
  | ERROR_INVALIDHASHES
  | ERROR_ZLIBINITFAILED
  deriving DecidableEq, Repr

export EErrorCode (ERROR_NONE ERROR_FILENOTFOUND ERROR_ACCESSFAILED
  ERROR_INVALIDDATA ERROR_INVALIDHASHES ERROR_ZLIBINITFAILED)

/-- `enum ArchiveType` from `bsatypes.h`.  `TYPE_FALLOUTNV` and
`TYPE_SKYRIM` are aliases of `TYPE_FALLOUT3` in the source and are not
separate constructors. -/
inductive ArchiveType where
  | TYPE_MORROWIND
  | TYPE_OBLIVION
  | TYPE_FALLOUT3
  | TYPE_SKYRIMSE
  | TYPE_FALLOUT4
  | TYPE_STARFIELD
  | TYPE_STARFIELD_LZ4_TEXTURE
  | TYPE_FALLOUT4NG_7
  | TYPE_FALLOUT4NG_8
  deriving DecidableEq, Repr

export ArchiveType (TYPE_MORROWIND TYPE_OBLIVION TYPE_FALLOUT3 TYPE_SKYRIMSE
  TYPE_FALLOUT4 TYPE_STARFIELD TYPE_STARFIELD_LZ4_TEXTURE
  TYPE_FALLOUT4NG_7 TYPE_FALLOUT4NG_8)

/-- The single error kind of the embedding: `data_invalid_exception`
and stream failures.  `bsaexception.h` is not part of the sources at
hand; modelled from the spec, `read` reports any such failure as
`ERROR_INVALIDDATA`, so one error kind suffices. -/
inductive BsaErr where
  | dataInvalid
  deriving DecidableEq, Repr

deriving instance DecidableEq for Except

/-- Little-endian byte-list decoding: `leVal [b0, b1, ...] = b0 + 256*b1 + ...`. -/
def leVal : List Nat → Nat
  | [] => 0
  | b :: bs => b % 256 + 256 * leVal bs

/-- Little-endian encoding of `v` into `n` bytes (truncating at `2^(8*n)`). -/
def leBytes (n v : Nat) : List Nat :=
  match n with
  | 0 => []
  | m + 1 => v % 256 :: leBytes m (v / 256)

theorem leBytes_length (n v : Nat) : (leBytes n v).length = n := by
  induction n generalizing v with
  | zero => rfl
  | succ m ih => simp [leBytes, ih]

theorem leVal_leBytes (n v : Nat) (h : v < 2 ^ (8 * n)) : leVal (leBytes n v) = v := by
  induction n generalizing v with
  | zero => simp [leBytes, leVal]; omega
  | succ m ih =>
    simp only [leBytes, leVal]
    rw [ih]
    · omega
    · have : 2 ^ (8 * (m + 1)) = 2 ^ (8 * m) * 256 := by ring
      rw [this] at h
      omega

/-- The state of `std::fstream` used for reading: the archive bytes and
the current get position. -/
structure IStream where
  data : List Nat
  pos : Nat
  deriving DecidableEq, Repr

/-- The reading monad: state `IStream`, failing with `BsaErr`.  This is
the shallow embedding of sequential `readType`/`seekg` calls on the
exception-enabled `std::fstream`. -/
def Parse (α : Type) : Type := IStream → Except BsaErr (α × IStream)

instance : Monad Parse where
  pure a := fun s => .ok (a, s)
  bind p f := fun s =>
    match p s with
    | .error e => .error e
    | .ok (a, s₁) => f a s₁

/-- Throw `data_invalid_exception`. -/
def Parse.fail {α : Type} : Parse α := fun _ => .error BsaErr.dataInvalid

/-- Read `n` raw bytes, advancing the position; a short read throws
(cf. `readType` in `bsatypes.h`). -/
def readBytes (n : Nat) : Parse (List Nat) := fun s =>
  if s.pos + n ≤ s.data.length then
    .ok ((s.data.drop s.pos).take n, ⟨s.data, s.pos + n⟩)
  else
    .error BsaErr.dataInvalid

/-- `seekg(p, std::ios::beg)`; seeking beyond the end only fails on a
subsequent read, as with `std::fstream`. -/
def seekTo (p : Nat) : Parse Unit := fun s => .ok ((), ⟨s.data, p⟩)

/-- `seekg(n, std::ios::cur)`. -/
def skipBytes (n : Nat) : Parse Unit := fun s => .ok ((), ⟨s.data, s.pos + n⟩)

/-- `tellg()`. -/
def tellPos : Parse Nat := fun s => .ok (s.pos, s)

/-- `readType<BSAUChar>`. -/
def readU8 : Parse Nat := do
  let bs ← readBytes 1
  pure (leVal bs)

/-- `readType<BSAUShort>`. -/
def readU16 : Parse Nat := do
  let bs ← readBytes 2
  pure (leVal bs)

/-- `readType<BSAUInt>` / `readType<BSAULong>` (both 32-bit). -/
def readU32 : Parse Nat := do
  let bs ← readBytes 4
  pure (leVal bs)

/-- `readType<BSAHash>` (64-bit). -/
def readU64 : Parse Nat := do
  let bs ← readBytes 8
  pure (leVal bs)

/-! ## Archive flags and type ids (`bsaarchive.h` / `bsaarchive.cpp`) -/

def FLAG_HASDIRNAMES : Nat := 0x00000001
def FLAG_HASFILENAMES : Nat := 0x00000002
def FLAG_DEFAULTCOMPRESSED : Nat := 0x00000004
def FLAG_NAMEPREFIXED : Nat := 0x00000100

/-- `Archive::typeFromID` (`bsaarchive.cpp` lines 65-85): the version
id to archive type table; unknown ids throw `data_invalid_exception`. -/
def typeFromID (typeID : Nat) : Except BsaErr ArchiveType :=
  if typeID = 0x100 then .ok TYPE_MORROWIND
  else if typeID = 0x67 then .ok TYPE_OBLIVION
  else if typeID = 0x68 then .ok TYPE_FALLOUT3
  else if typeID = 0x69 then .ok TYPE_SKYRIMSE
  else if typeID = 0x01 then .ok TYPE_FALLOUT4
  else if typeID = 0x02 then .ok TYPE_STARFIELD
  else if typeID = 0x03 then .ok TYPE_STARFIELD_LZ4_TEXTURE
  else .error BsaErr.dataInvalid

/-- `Archive::typeToID` (`bsaarchive.cpp` lines 87-107). -/
def typeToID (t : ArchiveType) : Nat :=
  match t with
  | TYPE_MORROWIND => 0x100
  | TYPE_OBLIVION => 0x67
  | TYPE_FALLOUT3 => 0x68
  | TYPE_SKYRIMSE => 0x69
  | TYPE_FALLOUT4 => 0x01
  | TYPE_STARFIELD => 0x02
  | TYPE_STARFIELD_LZ4_TEXTURE => 0x03
  | TYPE_FALLOUT4NG_7 => 0
  | TYPE_FALLOUT4NG_8 => 0

/-- Is the type one of the BTDX-era (BA2) types that `Archive::read`
and the extractors single out (`TYPE_FALLOUT4 || TYPE_STARFIELD ||
TYPE_STARFIELD_LZ4_TEXTURE`)? -/
def isBA2 (t : ArchiveType) : Bool :=
  t = TYPE_FALLOUT4 ∨ t = TYPE_STARFIELD ∨ t = TYPE_STARFIELD_LZ4_TEXTURE

/-- `Archive::Header` (`bsaarchive.h` lines 151-164).  `archType` is
the 4-byte ASCII kind tag, kept as raw bytes. -/
structure Header where
  fileIdentifier : Nat
  archType : List Nat
  type : ArchiveType
  offset : Nat
  archiveFlags : Nat
  folderCount : Nat
  fileCount : Nat
  folderNameLength : Nat
  fileNameLength : Nat
  fileFlags : Nat
  nameTableOffset : Nat
  deriving DecidableEq, Repr

/-- The zero-initialised `Header result;` local of `readHeader`. -/
def Header.init : Header :=
  ⟨0, [], TYPE_MORROWIND, 0, 0, 0, 0, 0, 0, 0, 0⟩

/-- `Archive::readHeader` (`bsaarchive.cpp` lines 109-147): reads the
4-byte magic, dispatches between the Morrowind, BTDX and older layouts,
and fills the header descriptor.  Unknown magic numbers and version
ids throw `data_invalid_exception`. -/
def readHeader : Parse Header := do
  let fileIdentifier ← readU32
  if fileIdentifier ≠ 0x00415342 ∧ fileIdentifier ≠ 0x58445442 ∧
      fileIdentifier ≠ 0x00000100 then
    Parse.fail
  else
    if fileIdentifier ≠ 0x00000100 then
      let versionId ← readU32
      match typeFromID versionId with
      | .error e => fun _ => .error e
      | .ok type =>
        if isBA2 type then do
          let archType ← readBytes 4
          let fileCount ← readU32
          let nameTableOffset ← readU64
          pure { Header.init with
            fileIdentifier := fileIdentifier, type := type, archType := archType,
            fileCount := fileCount, nameTableOffset := nameTableOffset,
            archiveFlags := FLAG_HASDIRNAMES ||| FLAG_HASFILENAMES }
        else do
          let offset ← readU32
          let archiveFlags ← readU32
          let folderCount ← readU32
          let fileCount ← readU32
          let folderNameLength ← readU32
          let fileNameLength ← readU32
          let fileFlags ← readU32
          pure { Header.init with
            fileIdentifier := fileIdentifier, type := type, offset := offset,
            archiveFlags := archiveFlags, folderCount := folderCount,
            fileCount := fileCount, folderNameLength := folderNameLength,
            fileNameLength := fileNameLength, fileFlags := fileFlags }
    else do
      let offset ← readU32
      let fileCount ← readU32
      pure { Header.init with
        fileIdentifier := fileIdentifier, type := TYPE_MORROWIND, offset := offset,
        fileCount := fileCount,
        archiveFlags := FLAG_HASDIRNAMES ||| FLAG_HASFILENAMES }

/-! ## Strings on disk (`bsatypes.h`)

`readBString` / `readZString` are declared in `bsatypes.h`; their
implementation file is not among the sources.  Modelled from the spec:
a BString is a 1-byte length followed by that many bytes with no
terminator; a ZString is the bytes followed by a single NUL. -/

/-- Modelled from the spec: `readBString` — 1-byte length prefix, then
that many name bytes (returned as raw bytes). -/
def readBString : Parse (List Nat) := do
  let len ← readU8
  readBytes len

/-- Modelled from the spec: `readZString` — bytes up to and including a
single NUL terminator; a missing terminator is a stream failure. -/
def readZString : Parse (List Nat) := fun s =>
  let rest := s.data.drop s.pos
  match rest.indexOf? 0 with
  | none => .error BsaErr.dataInvalid
  | some i => .ok (rest.take i, ⟨s.data, s.pos + i + 1⟩)

/-! ## Texture records (`bsatypes.h`) -/

/-- `struct FO4TextureHeader` (`bsatypes.h`); `format` is the raw DXGI
format code as read from disk. -/
structure FO4TextureHeader where
  nameHash : Nat
  extension : List Nat
  dirHash : Nat
  unknown1 : Nat
  chunkNumber : Nat
  chunkHeaderSize : Nat
  height : Nat
  width : Nat
  mipCount : Nat
  format : Nat
  unknown2 : Nat
  deriving DecidableEq, Repr

def FO4TextureHeader.init : FO4TextureHeader :=
  ⟨0, [], 0, 0, 0, 0, 0, 0, 0, 0, 0⟩

/-- `struct FO4TextureChunk` (`bsatypes.h`). -/
structure FO4TextureChunk where
  offset : Nat
  packedSize : Nat
  unpackedSize : Nat
  startMip : Nat
  endMip : Nat
  unknown : Nat
  deriving DecidableEq, Repr

/-! ## Files and the folder tree (`bsafile.h` / `bsafolder.*`)

`bsafile.{h,cpp}` is not among the sources; the `File` attributes and
record codecs are modelled from the spec (§3 "File", §4.2 record
shapes).  The folder tree implementation is `Folder` in the unnamed
source file (part_000). -/

/-- The in-memory `File` object.  Modelled from the spec: name (leaf),
stored size (`m_FileSize`), absolute data offset, uncompressed size,
per-entry compression-toggle bit, optional texture header and chunks. -/
structure BFile where
  name : String
  fileSize : Nat
  dataOffset : Nat
  uncompressedFileSize : Nat
  compressToggled : Bool
  texHeader : FO4TextureHeader
  texChunks : List FO4TextureChunk
  deriving DecidableEq, Repr

/-- The folder tree node (`Folder`).  `subs` keeps child folders in
insertion order; the `m_SubFoldersByName` lookup accelerator is
modelled as search by name in `subs` (the source keeps the two
containers synchronised). -/
structure FTree where
  name : String
  nameHash : Nat
  subs : List FTree
  files : List BFile

/-- A path separator (`std::filesystem::path` on Windows recognises
both `/` and `\`). -/
def isPathSep (c : Char) : Bool := c = '/' ∨ c = '\\'

/-- Accumulator-based splitter (structural, so that concrete trees
evaluate inside the kernel). -/
def splitPathAux : List Char → List Char → List String
  | [], cur => if cur.isEmpty then [] else [String.mk cur.reverse]
  | c :: cs, cur =>
    if isPathSep c then
      if cur.isEmpty then splitPathAux cs []
      else String.mk cur.reverse :: splitPathAux cs []
    else splitPathAux cs (c :: cur)

/-- `std::filesystem::path` decomposition: split on the path
separators, dropping empty components. -/
def splitPath (s : String) : List String := splitPathAux s.toList []

/-- Replace the first list entry with the given name (the effect of
updating the folder found through `m_SubFoldersByName`). -/
def replaceFirstNamed (n : String) (sub : FTree) : List FTree → List FTree
  | [] => []
  | x :: xs => if x.name = n then sub :: xs else x :: replaceFirstNamed n sub xs

/-- `Folder::addOrFindFolderInt` (part_000 lines 174-212), in purely
functional form.  `segs` is the path of the folder being inserted
(already split on separators), `fHash` the `m_NameHash` the caller
assigned to it, `emptyHash` the hash of the empty string that the
`Folder` default constructor assigns to dummy folders.  Returns the
updated tree and the address (name path) of the found or created
folder. -/
def addOrFindFolderInt (emptyHash : Nat) (t : FTree) (segs : List String)
    (fHash : Nat) : FTree × List String :=
  match segs with
  | [] => (t, [])
  | first :: remaining =>
    match t.subs.find? (fun sub => sub.name = first) with
    | some sub =>
      if remaining.isEmpty then
        (t, [first])
      else
        let r := addOrFindFolderInt emptyHash sub remaining fHash
        (⟨t.name, t.nameHash, replaceFirstNamed first r.1 t.subs, t.files⟩,
         first :: r.2)
    | none =>
      if remaining.isEmpty then
        (⟨t.name, t.nameHash, t.subs ++ [⟨first, fHash, [], []⟩], t.files⟩, [first])
      else
        let dummy : FTree := ⟨first, emptyHash, [], []⟩
        let r := addOrFindFolderInt emptyHash dummy remaining fHash
        (⟨t.name, t.nameHash, t.subs ++ [r.1], t.files⟩, first :: r.2)

/-- Attach a file to the folder at the given address (the
`result->m_Files.push_back` step of `addFolderFromFile`). -/
def attachFile (t : FTree) (addr : List String) (f : BFile) : FTree :=
  match addr with
  | [] => ⟨t.name, t.nameHash, t.subs, t.files ++ [f]⟩
  | a :: rest =>
    match t.subs.find? (fun sub => sub.name = a) with
    | some sub => ⟨t.name, t.nameHash,
        replaceFirstNamed a (attachFile sub rest f) t.subs, t.files⟩
    | none => t

/-- `Folder::addFolderFromFile` (part_000 lines 227-251): split the
file path, find or create the parent folder chain, and attach a new
`File` built from the record fields to the deepest folder.  `hash` is
the external `calculateBSAHash` function.  The file's compression
toggle is left clear (modelled from the spec: the BTDX record formats
carry no toggle bit). -/
def addFolderFromFile (hash : String → Nat) (t : FTree) (filePath : String)
    (size : Nat) (offset : Nat) (uncompressedSize : Nat)
    (header : FO4TextureHeader) (texChunks : List FO4TextureChunk) :
    FTree × List String :=
  let segs := splitPath filePath
  let parentSegs := segs.dropLast
  let fileName := segs.getLastD ""
  let r := addOrFindFolderInt (hash "") t parentSegs (hash filePath)
  (attachFile r.1 r.2
    ⟨fileName, size, offset, uncompressedSize, false, header, texChunks⟩, r.2)

/-- The root folder made by the `Folder` default constructor: no
parent, empty name, hash of the empty string. -/
def rootFolder (hash : String → Nat) : FTree := ⟨"", hash "", [], []⟩

/-- Number of direct children of `t` that carry the name `n`. -/
def childCountNamed (t : FTree) (n : String) : Nat :=
  (t.subs.filter (fun sub => sub.name = n)).length

/-- The subtree at a name path, following the first match at each
level. -/
def folderAt (t : FTree) : List String → Option FTree
  | [] => some t
  | a :: rest =>
    match t.subs.find? (fun sub => sub.name = a) with
    | some sub => folderAt sub rest
    | none => none

/-- The file names held directly by the folder at the given path. -/
def fileNamesAt (t : FTree) (addr : List String) : Option (List String) :=
  (folderAt t addr).map (fun f => f.files.map (fun fl => fl.name))

/-- Decode raw name bytes into a Lean string (each byte one char). -/
def stringOfBytes (bs : List Nat) : String :=
  String.mk (bs.map (fun b => Char.ofNat (b % 256)))

/-- Wrapping unsigned subtraction at width `w` bits (C unsigned
arithmetic). -/
def subWrap (w a b : Nat) : Nat := (a % 2 ^ w + 2 ^ w - b % 2 ^ w) % 2 ^ w

/-! ## BTDX (BA2) record readers (`Archive::read`, BTDX branch) -/

/-- One GNRL file record (`bsaarchive.cpp` lines 196-204):
`{nameHash:4, extension:4, dirHash:4, _pad:4, offset:8, packedSize:4,
unpackedSize:4, _pad:4}`. -/
structure GNRLRec where
  nameHash : Nat
  extension : List Nat
  dirHash : Nat
  offset : Nat
  packedSize : Nat
  unpackedSize : Nat
  deriving DecidableEq, Repr

/-- Read one GNRL file record. -/
def readGNRLRecord : Parse GNRLRec := do
  let nameHash ← readU32
  let extension ← readBytes 4
  let dirHash ← readU32
  skipBytes 4
  let offset ← readU64
  let packedSize ← readU32
  let unpackedSize ← readU32
  skipBytes 4
  pure ⟨nameHash, extension, dirHash, offset, packedSize, unpackedSize⟩

/-- The `File` built for a GNRL record by
`addFolderFromFile(fileNames[i], packedSize, offset, unpackedSize, {}, dummy)`:
the record's `packedSize` becomes the stored size `m_FileSize`. -/
def gnrlBFile (fileName : String) (r : GNRLRec) : BFile :=
  ⟨fileName, r.packedSize, r.offset, r.unpackedSize, false, FO4TextureHeader.init, []⟩

/-- Read one DX10 texture header (`bsaarchive.cpp` lines 215-226). -/
def readDX10Header : Parse FO4TextureHeader := do
  let nameHash ← readU32
  let extension ← readBytes 4
  let dirHash ← readU32
  let unknown1 ← readU8
  let chunkNumber ← readU8
  let chunkHeaderSize ← readU16
  let height ← readU16
  let width ← readU16
  let mipCount ← readU8
  let format ← readU16
  let unknown2 ← readU8
  pure ⟨nameHash, extension, dirHash, unknown1, chunkNumber, chunkHeaderSize,
    height, width, mipCount, format, unknown2⟩

/-- Read one DX10 texture chunk record (`bsaarchive.cpp` lines 229-236). -/
def readTextureChunk : Parse FO4TextureChunk := do
  let offset ← readU64
  let packedSize ← readU32
  let unpackedSize ← readU32
  let startMip ← readU16
  let endMip ← readU16
  let unknown ← readU32
  pure ⟨offset, packedSize, unpackedSize, startMip, endMip, unknown⟩

/-! ## Older-layout record readers (`Folder::readFolder[SE]`, part_000) -/

/-- One older-layout file record.  Modelled from the spec
(`bsafile.cpp` is not among the sources): `{hash:8, size:4, offset:4}`,
where the size word's sign bit is the compression toggle and the lower
bits are the stored byte count. -/
structure OldFileRec where
  hash : Nat
  sizeWord : Nat
  offset : Nat
  deriving DecidableEq, Repr

/-- Modelled from the spec: read one older-layout file record
(`File::File(std::fstream&, Folder*)` in the missing `bsafile.cpp`). -/
def readOldFileRec : Parse OldFileRec := do
  let hash ← readU64
  let sizeWord ← readU32
  let offset ← readU32
  pure ⟨hash, sizeWord, offset⟩

/-- Modelled from the spec: the `File` built from an older-layout
record with its name still unresolved: the size word's sign bit is the
per-file compression toggle, its lower bits the stored size. -/
def oldBFile (r : OldFileRec) : BFile :=
  ⟨"", r.sizeWord % 2 ^ 30, r.offset, 0, r.sizeWord.testBit 31,
    FO4TextureHeader.init, []⟩

/-- One parsed older-layout folder record together with its name block. -/
structure OldFolderRec where
  nameHash : Nat
  fileCount : Nat
  offset : Nat
  nameBytes : List Nat
  files : List OldFileRec
  deriving DecidableEq, Repr

/-- `Folder::readFolder` / `Folder::readFolderSE` (part_000 lines
41-92): read the folder record (SkyrimSE interleaves a 4-byte padding
word and widens the offset to 8 bytes), seek to
`offset - fileNamesLength` for the BString name and the file records,
track the maximum end position, and restore the position after the
folder record.  The offset bias subtraction wraps at the record
field's width, as the unsigned C++ arithmetic does. -/
def readFolderRec (se : Bool) (fileNamesLength : Nat) (endPos : Nat) :
    Parse (OldFolderRec × Nat) := do
  let nameHash ← readU64
  let fileCount ← readU32
  if se then skipBytes 4 else pure ()
  let offset ← if se then readU64 else readU32
  let pos ← tellPos
  seekTo (subWrap (if se then 64 else 32) offset fileNamesLength)
  let nameBytes ← readBString
  let files ← (List.range fileCount).mapM (fun _ => readOldFileRec)
  let here ← tellPos
  let endPos := if here > endPos then here else endPos
  seekTo pos
  pure (⟨nameHash, fileCount, offset, nameBytes, files⟩, endPos)

/-- `Folder::addFolderInt` (part_000 lines 139-172): walk the folder's
(already split) path, recursing into a matching child, creating dummy
chain folders otherwise.  The degenerate cases with an empty path
(which dereference an empty `std::filesystem::path` iterator in the
source) are modelled as leaving the tree unchanged; `read` never
produces them for well-formed archives. -/
def addFolderInt (emptyHash : Nat) (t : FTree) (segs : List String)
    (folder : FTree) : FTree :=
  match segs with
  | [] => t
  | first :: remaining =>
    match t.subs.find? (fun sub => sub.name = first) with
    | some sub =>
      if remaining.isEmpty then t
      else
        ⟨t.name, t.nameHash,
          replaceFirstNamed first (addFolderInt emptyHash sub remaining folder) t.subs,
          t.files⟩
    | none =>
      if remaining.isEmpty then
        ⟨t.name, t.nameHash,
          t.subs ++ [⟨first, folder.nameHash, folder.subs, folder.files⟩], t.files⟩
      else
        ⟨t.name, t.nameHash,
          t.subs ++ [addFolderInt emptyHash ⟨first, emptyHash, [], []⟩ remaining folder],
          t.files⟩

/-- Modelled from the spec: `File::readFileName` (missing
`bsafile.cpp`) reads the file's ZString name from the dense name
table; with `testHashes` set it throws when the external hash of the
name does not match the record hash.  `Folder::resolveFileNames`
(part_000 lines 253-265) catches per file and reports validity. -/
def resolveFolderFiles (hash : String → Nat) (testHashes : Bool)
    (fr : OldFolderRec) : Parse (Bool × List BFile) := fun s =>
  let step := fun (acc : Bool × List BFile × IStream) (r : OldFileRec) =>
    match readZString acc.2.2 with
    | .error _ => (false, acc.2.1 ++ [oldBFile r], acc.2.2)
    | .ok (nameBytes, s₂) =>
      let name := stringOfBytes nameBytes
      let file := oldBFile r
      let file : BFile := ⟨name, file.fileSize, file.dataOffset,
        file.uncompressedFileSize, file.compressToggled, file.texHeader,
        file.texChunks⟩
      if testHashes ∧ hash name ≠ r.hash then
        (false, acc.2.1 ++ [file], s₂)
      else
        (acc.1, acc.2.1 ++ [file], s₂)
  let r := fr.files.foldl step (true, [], s)
  .ok ((r.1, r.2.1), r.2.2)

/-! ## `Archive::read` (`bsaarchive.cpp` lines 149-300)

The filesystem side (`ERROR_FILENOTFOUND` when the file cannot be
opened) is outside the byte-level model; `read` is given the archive
bytes directly.  `data_invalid_exception` derives from
`std::ios_base::failure` (modelled from the spec: every parse failure
surfaces as `ERROR_INVALIDDATA`), so the `catch` block at the end of
`read` maps every `BsaErr` to `ERROR_INVALIDDATA`. -/

/-- The BTDX branch of `read` (lines 165-246). -/
def readBTDX (hash : String → Nat) (header : Header) : Parse FTree := do
  seekTo header.nameTableOffset
  let fileNames ← (List.range header.fileCount).mapM (fun _ => do
    let length ← readU16
    let nameBytes ← readBytes length
    pure (stringOfBytes nameBytes))
  let offset : Nat :=
    match header.type with
    | TYPE_STARFIELD => 32
    | TYPE_STARFIELD_LZ4_TEXTURE => 36
    | _ => 24
  if header.archType = [0x47, 0x4E, 0x52, 0x4C] then do  -- "GNRL"
    seekTo offset
    fileNames.foldlM (fun t fileName => do
      let r ← readGNRLRecord
      pure (addFolderFromFile hash t fileName r.packedSize r.offset
        r.unpackedSize FO4TextureHeader.init []).1) (rootFolder hash)
  else if header.archType = [0x44, 0x58, 0x31, 0x30] then do  -- "DX10"
    seekTo offset
    fileNames.foldlM (fun t fileName => do
      let texHeader ← readDX10Header
      let chunks ← (List.range texHeader.chunkNumber).mapM
        (fun _ => readTextureChunk)
      match chunks with
      | [] => Parse.fail  -- `chunks[0]` on an empty vector: undefined in the source
      | c :: _ =>
        pure (addFolderFromFile hash t fileName c.packedSize c.offset
          c.unpackedSize texHeader chunks).1) (rootFolder hash)
  else
    pure (rootFolder hash)

/-- The Morrowind branch of `read` (lines 247-276); all offset
arithmetic is 32-bit unsigned. -/
def readMorrowind (hash : String → Nat) (header : Header) : Parse FTree := do
  let dataOffset := (12 + header.offset + header.fileCount * 8) % 2 ^ 32
  let fileSizeOffset ← (List.range header.fileCount).mapM (fun _ => do
    let size ← readU32
    let offset ← readU32
    pure (size, offset))
  let fileNameOffset ← (List.range header.fileCount).mapM (fun _ => readU32)
  let last := subWrap 32 header.offset (12 * header.fileCount)
  (List.range header.fileCount).foldlM (fun t i => do
    let index :=
      if i + 1 = header.fileCount then last
      else subWrap 32 (fileNameOffset.getD (i + 1) 0) (fileNameOffset.getD i 0)
    let pathBytes ← readBytes index
    let filePath := stringOfBytes pathBytes
    let sz := fileSizeOffset.getD i (0, 0)
    pure (addFolderFromFile hash t filePath sz.1 ((dataOffset + sz.2) % 2 ^ 32) 0
      FO4TextureHeader.init []).1) (rootFolder hash)

/-- The older-layout branch of `read` (lines 277-296): parse the
folder records (tracking the maximum end position in `header.offset`),
seek there, then resolve the file names folder by folder.  In the
source the tree is populated while parsing and the name resolution
mutates the shared `File` objects; here the folder records are
resolved first and the (behaviourally identical) tree is assembled
from the resolved folders. -/
def readOlder (hash : String → Nat) (header : Header) (testHashes : Bool) :
    Parse (Bool × FTree) := do
  let se := header.type = TYPE_SKYRIMSE
  let r ← (List.range header.folderCount).foldlM
    (fun (acc : List OldFolderRec × Nat) _ => do
      let fr ← readFolderRec se header.fileNameLength acc.2
      pure (acc.1 ++ [fr.1], fr.2)) (([] : List OldFolderRec), header.offset)
  seekTo r.2
  let resolved ← r.1.foldlM (fun (acc : Bool × List (OldFolderRec × List BFile)) fr => do
    let rf ← resolveFolderFiles hash testHashes fr
    pure (acc.1 ∧ rf.1, acc.2 ++ [(fr, rf.2)])) (true, [])
  let tree := resolved.2.foldl (fun t frf =>
    addFolderInt (hash "") t (splitPath (stringOfBytes frf.1.nameBytes))
      ⟨stringOfBytes frf.1.nameBytes, frf.1.nameHash, [], frf.2⟩) (rootFolder hash)
  pure (resolved.1, tree)

/-- `Archive::read`: parse the header, dispatch on the archive type,
build the tree; any thrown failure yields `ERROR_INVALIDDATA`. -/
def Archive.read (hash : String → Nat) (bytes : List Nat) (testHashes : Bool) :
    EErrorCode × FTree :=
  let body : Parse (EErrorCode × FTree) := do
    let header ← readHeader
    if isBA2 header.type then do
      let tree ← readBTDX hash header
      pure (ERROR_NONE, tree)
    else if header.type = TYPE_MORROWIND then do
      let tree ← readMorrowind hash header
      pure (ERROR_NONE, tree)
    else do
      let r ← readOlder hash header testHashes
      pure (if r.1 then ERROR_NONE else ERROR_INVALIDHASHES, r.2)
  match body ⟨bytes, 0⟩ with
  | .error _ => (ERROR_INVALIDDATA, rootFolder hash)
  | .ok (r, _) => r

/-! ## Compression predicate (`bsaarchive.cpp` lines 1170-1175) -/

/-- `Archive::defaultCompressed` (`bsaarchive.h` line 189). -/
def defaultCompressed (archiveFlags : Nat) : Bool :=
  archiveFlags &&& FLAG_DEFAULTCOMPRESSED ≠ 0

/-- `Archive::namePrefixed` (`bsaarchive.h` lines 192-195). -/
def namePrefixed (t : ArchiveType) (archiveFlags : Nat) : Bool :=
  t ≠ TYPE_OBLIVION ∧ archiveFlags &&& FLAG_NAMEPREFIXED ≠ 0

/-- `Archive::compressed` (`bsaarchive.cpp` lines 1170-1175): every
type except `TYPE_FALLOUT4` uses the per-file toggle XOR the
default-compressed archive flag; `TYPE_FALLOUT4` tests the stored size
(the GNRL `packedSize`) against zero. -/
def Archive.compressed (t : ArchiveType) (archiveFlags : Nat) (file : BFile) : Bool :=
  if t ≠ TYPE_FALLOUT4 then
    xor file.compressToggled (defaultCompressed archiveFlags)
  else
    file.fileSize > 0

/-! ## DDS synthesis (`Archive::getDDSHeader` / `Archive::getDX10Header`)

The DDS and DXGI constants are an external table (DirectXTex `DDS.h`
and `dxgiformat.h`); their standard values are reproduced here. -/

def DXGI_FORMAT_R8G8B8A8_UNORM : Nat := 28
def DXGI_FORMAT_R8_UNORM : Nat := 61
def DXGI_FORMAT_BC1_UNORM : Nat := 71
def DXGI_FORMAT_BC1_UNORM_SRGB : Nat := 72
def DXGI_FORMAT_BC2_UNORM : Nat := 74
def DXGI_FORMAT_BC2_UNORM_SRGB : Nat := 75
def DXGI_FORMAT_BC3_UNORM : Nat := 77
def DXGI_FORMAT_BC3_UNORM_SRGB : Nat := 78
def DXGI_FORMAT_BC4_UNORM : Nat := 80
def DXGI_FORMAT_BC5_UNORM : Nat := 83
def DXGI_FORMAT_BC5_SNORM : Nat := 84
def DXGI_FORMAT_B8G8R8A8_UNORM : Nat := 87
def DXGI_FORMAT_B8G8R8X8_UNORM : Nat := 88
def DXGI_FORMAT_BC7_UNORM : Nat := 98
def DXGI_FORMAT_BC7_UNORM_SRGB : Nat := 99

def DDS_HEADER_FLAGS_TEXTURE : Nat := 0x00001007
def DDS_HEADER_FLAGS_LINEARSIZE : Nat := 0x00080000
def DDS_HEADER_FLAGS_MIPMAP : Nat := 0x00020000
def DDS_SURFACE_FLAGS_TEXTURE : Nat := 0x00001000
def DDS_SURFACE_FLAGS_MIPMAP : Nat := 0x00400008
def DDS_CUBEMAP_ALLFACES : Nat := 0x0000FE00
def DDS_FOURCC : Nat := 0x00000004
def DDS_RGB : Nat := 0x00000040
def DDS_RGBA : Nat := 0x00000041
def DDS_LUMINANCE : Nat := 0x00020000
def DDS_DIMENSION_TEXTURE2D : Nat := 3

/-- `DDS_PIXELFORMAT` (external DirectXTex layout, 32 bytes). -/
structure DDS_PIXELFORMAT where
  size : Nat
  flags : Nat
  fourCC : Nat
  RGBBitCount : Nat
  RBitMask : Nat
  GBitMask : Nat
  BBitMask : Nat
  ABitMask : Nat
  deriving DecidableEq, Repr

def DDSPF_zero : DDS_PIXELFORMAT := ⟨0, 0, 0, 0, 0, 0, 0, 0⟩
def DDSPF_DXT1 : DDS_PIXELFORMAT := ⟨32, DDS_FOURCC, 0x31545844, 0, 0, 0, 0, 0⟩
def DDSPF_DXT3 : DDS_PIXELFORMAT := ⟨32, DDS_FOURCC, 0x33545844, 0, 0, 0, 0, 0⟩
def DDSPF_DXT5 : DDS_PIXELFORMAT := ⟨32, DDS_FOURCC, 0x35545844, 0, 0, 0, 0, 0⟩
def DDSPF_BC4_UNORM : DDS_PIXELFORMAT := ⟨32, DDS_FOURCC, 0x55344342, 0, 0, 0, 0, 0⟩
def DDSPF_BC5_SNORM : DDS_PIXELFORMAT := ⟨32, DDS_FOURCC, 0x53354342, 0, 0, 0, 0, 0⟩
def DDSPF_DX10 : DDS_PIXELFORMAT := ⟨32, DDS_FOURCC, 0x30315844, 0, 0, 0, 0, 0⟩
def DDSPF_A8R8G8B8 : DDS_PIXELFORMAT :=
  ⟨32, DDS_RGBA, 0, 32, 0x00ff0000, 0x0000ff00, 0x000000ff, 0xff000000⟩
def DDSPF_A8B8G8R8 : DDS_PIXELFORMAT :=
  ⟨32, DDS_RGBA, 0, 32, 0x000000ff, 0x0000ff00, 0x00ff0000, 0xff000000⟩
def DDSPF_X8B8G8R8 : DDS_PIXELFORMAT :=
  ⟨32, DDS_RGB, 0, 32, 0x000000ff, 0x0000ff00, 0x00ff0000, 0⟩
def DDSPF_L8 : DDS_PIXELFORMAT := ⟨32, DDS_LUMINANCE, 0, 8, 0xff, 0, 0, 0⟩

/-- `DDS_HEADER` (external DirectXTex layout, 124 bytes). -/
structure DDS_HEADER where
  size : Nat
  flags : Nat
  height : Nat
  width : Nat
  pitchOrLinearSize : Nat
  depth : Nat
  mipMapCount : Nat
  ddspf : DDS_PIXELFORMAT
  caps : Nat
  caps2 : Nat
  caps3 : Nat
  caps4 : Nat
  deriving DecidableEq, Repr

/-- The zero-initialised `DirectX::DDS_HEADER DDSHeaderData = {};`. -/
def DDS_HEADER.zero : DDS_HEADER := ⟨0, 0, 0, 0, 0, 0, 0, DDSPF_zero, 0, 0, 0, 0⟩

/-- `DDS_HEADER_DXT10` (external DirectXTex layout, 20 bytes). -/
structure DDS_HEADER_DXT10 where
  dxgiFormat : Nat
  resourceDimension : Nat
  miscFlag : Nat
  arraySize : Nat
  miscFlags2 : Nat
  deriving DecidableEq, Repr

def DDS_HEADER_DXT10.zero : DDS_HEADER_DXT10 := ⟨0, 0, 0, 0, 0⟩

/-- The result of `Archive::getDDSHeader` together with its two output
parameters: the `isDX10` flag and the `DX10Header` (whose `dxgiFormat`
is assigned in the BC7 cases). -/
structure DDSResult where
  hdr : DDS_HEADER
  isDX10 : Bool
  dx10 : DDS_HEADER_DXT10
  deriving DecidableEq, Repr

/-- `Archive::getDDSHeader` (`bsaarchive.cpp` lines 494-592): fill the
common fields, set `caps2` for the cubemap sentinel, then dispatch on
the DXGI format; an unsupported format returns the empty (zeroed)
header (`return {};`). -/
def getDDSHeader (tex : FO4TextureHeader) (dx10In : DDS_HEADER_DXT10) : DDSResult :=
  let base : DDS_HEADER :=
    ⟨124,
     DDS_HEADER_FLAGS_TEXTURE ||| DDS_HEADER_FLAGS_LINEARSIZE ||| DDS_HEADER_FLAGS_MIPMAP,
     tex.height, tex.width, 0, 0, tex.mipCount,
     ⟨32, 0, 0, 0, 0, 0, 0, 0⟩,
     DDS_SURFACE_FLAGS_TEXTURE ||| DDS_SURFACE_FLAGS_MIPMAP,
     if tex.unknown2 = 2049 then DDS_CUBEMAP_ALLFACES else 0, 0, 0⟩
  if tex.format = DXGI_FORMAT_BC1_UNORM ∨ tex.format = DXGI_FORMAT_BC1_UNORM_SRGB then
    ⟨{ base with ddspf := DDSPF_DXT1, pitchOrLinearSize := tex.width * tex.height / 2 },
     false, dx10In⟩
  else if tex.format = DXGI_FORMAT_BC2_UNORM ∨ tex.format = DXGI_FORMAT_BC2_UNORM_SRGB then
    ⟨{ base with ddspf := DDSPF_DXT3, pitchOrLinearSize := tex.width * tex.height },
     false, dx10In⟩
  else if tex.format = DXGI_FORMAT_BC3_UNORM ∨ tex.format = DXGI_FORMAT_BC3_UNORM_SRGB then
    ⟨{ base with ddspf := DDSPF_DXT5, pitchOrLinearSize := tex.width * tex.height },
     false, dx10In⟩
  else if tex.format = DXGI_FORMAT_BC4_UNORM then
    ⟨{ base with ddspf := DDSPF_BC4_UNORM, pitchOrLinearSize := tex.width * tex.height },
     false, dx10In⟩
  else if tex.format = DXGI_FORMAT_BC5_UNORM then
    ⟨{ base with
        ddspf := ⟨32, DDS_FOURCC, 0x32495441, 0, 0, 0, 0, 0⟩,
        pitchOrLinearSize := tex.width * tex.height },
     false, dx10In⟩
  else if tex.format = DXGI_FORMAT_BC5_SNORM then
    ⟨{ base with ddspf := DDSPF_BC5_SNORM, pitchOrLinearSize := tex.width * tex.height },
     false, dx10In⟩
  else if tex.format = DXGI_FORMAT_BC7_UNORM ∨ tex.format = DXGI_FORMAT_BC7_UNORM_SRGB then
    ⟨{ base with ddspf := DDSPF_DX10, pitchOrLinearSize := tex.width * tex.height },
     true, { dx10In with dxgiFormat := tex.format }⟩
  else if tex.format = DXGI_FORMAT_R8G8B8A8_UNORM then
    ⟨{ base with ddspf := DDSPF_A8R8G8B8, pitchOrLinearSize := tex.width * tex.height * 4 },
     false, dx10In⟩
  else if tex.format = DXGI_FORMAT_B8G8R8A8_UNORM then
    ⟨{ base with ddspf := DDSPF_A8B8G8R8, pitchOrLinearSize := tex.width * tex.height * 4 },
     false, dx10In⟩
  else if tex.format = DXGI_FORMAT_B8G8R8X8_UNORM then
    ⟨{ base with ddspf := DDSPF_X8B8G8R8 }, false, dx10In⟩
  else if tex.format = DXGI_FORMAT_R8_UNORM then
    ⟨{ base with ddspf := DDSPF_L8, pitchOrLinearSize := tex.width * tex.height },
     false, dx10In⟩
  else
    ⟨DDS_HEADER.zero, false, dx10In⟩

/-- `Archive::getDX10Header` (`bsaarchive.cpp` lines 594-601):
overwrite the dimension, misc flags and array size of the DX10 header
(the `dxgiFormat` was already assigned in `getDDSHeader`). -/
def getDX10Header (dx10 : DDS_HEADER_DXT10) : DDS_HEADER_DXT10 :=
  { dx10 with
    resourceDimension := DDS_DIMENSION_TEXTURE2D,
    miscFlag := 0, arraySize := 1, miscFlags2 := 0 }

/-- Serialisation of `DDS_PIXELFORMAT` (32 bytes, little-endian). -/
def ddsPixelFormatBytes (pf : DDS_PIXELFORMAT) : List Nat :=
  leBytes 4 pf.size ++ leBytes 4 pf.flags ++ leBytes 4 pf.fourCC ++
  leBytes 4 pf.RGBBitCount ++ leBytes 4 pf.RBitMask ++ leBytes 4 pf.GBitMask ++
  leBytes 4 pf.BBitMask ++ leBytes 4 pf.ABitMask

/-- Serialisation of `DDS_HEADER` as written by
`outFile.write(DDSHeader, sizeof(DDSHeaderData))` (124 bytes: the 11
reserved words and the final reserved word are zero). -/
def ddsHeaderBytes (h : DDS_HEADER) : List Nat :=
  leBytes 4 h.size ++ leBytes 4 h.flags ++ leBytes 4 h.height ++
  leBytes 4 h.width ++ leBytes 4 h.pitchOrLinearSize ++ leBytes 4 h.depth ++
  leBytes 4 h.mipMapCount ++ List.replicate 44 0 ++ ddsPixelFormatBytes h.ddspf ++
  leBytes 4 h.caps ++ leBytes 4 h.caps2 ++ leBytes 4 h.caps3 ++
  leBytes 4 h.caps4 ++ List.replicate 4 0

/-- Serialisation of `DDS_HEADER_DXT10` (20 bytes). -/
def dx10HeaderBytes (h : DDS_HEADER_DXT10) : List Nat :=
  leBytes 4 h.dxgiFormat ++ leBytes 4 h.resourceDimension ++
  leBytes 4 h.miscFlag ++ leBytes 4 h.arraySize ++ leBytes 4 h.miscFlags2

/-! ## Extraction (`bsaarchive.cpp` lines 603-858)

The output `std::ofstream` is modelled as the list of bytes written.
The source enables exceptions only for `badbit`; a short read is
modelled as a failure surfacing `ERROR_INVALIDDATA` — every theorem
below evaluates the extractors on streams with sufficient data, where
the two behaviours agree.  zlib inflate and the two LZ4 decoders are
external primitives, passed as functions (`inflate` returns `none` on
a corrupt stream). -/

/-- `static const unsigned long CHUNK_SIZE = 128 * 1024;`. -/
def CHUNK_SIZE : Nat := 128 * 1024

/-- Read `n` bytes at absolute position `pos` (`none` on short read). -/
def readAt (src : List Nat) (pos n : Nat) : Option (List Nat) :=
  if pos + n ≤ src.length then some ((src.drop pos).take n) else none

/-- One fuel-indexed unrolling of the copy loop at the end of
`extractDirect`; each iteration copies `min sizeLeft CHUNK_SIZE ≥ 1`
bytes, so any `fuel ≥ sizeLeft` gives the loop's exact behaviour while
keeping the recursion structural (kernel-reducible). -/
def chunkIter (src : List Nat) : Nat → Nat → Nat → List Nat →
    EErrorCode × List Nat
  | _, _, 0, out => (ERROR_NONE, out)
  | 0, _, _, out => (ERROR_NONE, out)
  | fuel + 1, pos, sizeLeft, out =>
    let chunkSize := min sizeLeft CHUNK_SIZE
    match readAt src pos chunkSize with
    | none => (ERROR_INVALIDDATA, out)
    | some bs =>
      chunkIter src fuel (pos + chunkSize) (sizeLeft - chunkSize) (out ++ bs)

/-- The copy loop at the end of `extractDirect` (lines 664-677): copy
`sizeLeft` bytes from the current stream position to the output in
chunks of at most `CHUNK_SIZE`. -/
def chunkLoop (src : List Nat) (pos sizeLeft : Nat) (out : List Nat) :
    EErrorCode × List Nat :=
  chunkIter src sizeLeft pos sizeLeft out

/-- `Archive::decompress` (lines 681-727): when the caller passes
`outSize == 0`, the first four input bytes are the little-endian
uncompressed size (consumed from the input); empty input or a zero
output size return a null buffer with the status untouched
(`ERROR_NONE` at every call site); a corrupt stream yields
`ERROR_INVALIDDATA`.  Returns (status, buffer, final `outSize`); the
buffer is normalised to `outSize` bytes (the C++ output buffer is
allocated at `outSize` and the call sites write exactly `outSize`
bytes of it, zero here standing for bytes `inflate` did not produce). -/
def decompress (inflate : List Nat → Option (List Nat)) (inBuffer : List Nat)
    (inSize outSize : Nat) : EErrorCode × Option (List Nat) × Nat :=
  let peeled :=
    if outSize = 0 then
      (inBuffer.drop 4, subWrap 32 inSize 4, leVal (inBuffer.take 4))
    else (inBuffer, inSize, outSize)
  if peeled.2.1 = 0 ∨ peeled.2.2 = 0 then
    (ERROR_NONE, none, peeled.2.2)
  else
    match inflate (peeled.1.take peeled.2.1) with
    | none => (ERROR_INVALIDDATA, none, peeled.2.2)
    | some out =>
      (ERROR_NONE,
       some (out.take peeled.2.2 ++ List.replicate (peeled.2.2 - out.length) 0),
       peeled.2.2)

/-- The name-prefix block duplicated across `extractDirect`,
`extractCompressed` and `readFiles` (e.g. lines 651-658): when the
archive is name-prefixed, read the BString full name at `pos`; a
stored size not larger than the name length returns early with the
status left at `ERROR_NONE` (the `#pragma message("report error!")`
path); otherwise subtract `length + 1` from the size.  Returns `none`
on a stream failure, `some none` for the early return, and
`some (some (size, pos))` with the adjusted size and position
otherwise. -/
def prefixAdjust (t : ArchiveType) (archiveFlags : Nat) (size : Nat)
    (src : List Nat) (pos : Nat) : Option (Option (Nat × Nat)) :=
  if namePrefixed t archiveFlags then
    match readAt src pos 1 with
    | none => none
    | some lb =>
      let len := leVal lb
      match readAt src (pos + 1) len with
      | none => none
      | some _ =>
        if size ≤ len then some none
        else some (some (size - (len + 1), pos + 1 + len))
  else some (some (size, pos))

/-- The `"DDS "` magic plus the serialised headers written before the
chunk data of a texture entry (lines 624-640 / 753-769). -/
def ddsPrefix (tex : FO4TextureHeader) : List Nat :=
  let dds := getDDSHeader tex DDS_HEADER_DXT10.zero
  [0x44, 0x44, 0x53, 0x20] ++ ddsHeaderBytes dds.hdr ++
  (if dds.isDX10 then dx10HeaderBytes (getDX10Header dds.dx10) else [])

/-- The raw chunk reads of `extractDirect` (lines 642-647): for each
chunk, read `unpackedSize` bytes from the current position.  Returns
the concatenated bytes and the final position. -/
def readChunksRaw (src : List Nat) (pos : Nat) :
    List FO4TextureChunk → Option (List Nat × Nat)
  | [] => some ([], pos)
  | c :: rest =>
    match readAt src pos c.unpackedSize with
    | none => none
    | some bs =>
      (readChunksRaw src (pos + c.unpackedSize) rest).map
        (fun r => (bs ++ r.1, r.2))

/-- `Archive::extractDirect` (lines 605-679): the empty-size guard,
the three storage branches, and — unconditionally after the branch —
the leftover chunked copy loop that copies another `m_FileSize` bytes
from the stream position the branch left behind.  Returns the status
and the bytes written to the output file. -/
def extractDirect (t : ArchiveType) (archiveFlags : Nat) (file : BFile)
    (src : List Nat) : EErrorCode × List Nat :=
  if file.fileSize = 0 then (ERROR_NONE, [])
  else
    let pos := file.dataOffset
    if isBA2 t then
      if file.texChunks.isEmpty then
        match readAt src pos file.uncompressedFileSize with
        | none => (ERROR_INVALIDDATA, [])
        | some buf =>
          chunkLoop src (pos + file.uncompressedFileSize) file.fileSize buf
      else
        match readChunksRaw src pos file.texChunks with
        | none => (ERROR_INVALIDDATA, ddsPrefix file.texHeader)
        | some r =>
          chunkLoop src r.2 file.fileSize (ddsPrefix file.texHeader ++ r.1)
    else
      match prefixAdjust t archiveFlags file.fileSize src pos with
      | .none => (ERROR_INVALIDDATA, [])
      | .some none => (ERROR_NONE, [])
      | .some (some a) =>
        match readAt src a.2 a.1 with
        | none => (ERROR_INVALIDDATA, [])
        | some buf => chunkLoop src (a.2 + a.1) file.fileSize buf

/-- The compressed chunk loop of `extractCompressed` (lines 771-790):
for each chunk read `packedSize` bytes and decompress them to
`unpackedSize` bytes with LZ4 block decoding (Starfield-LZ4-Texture)
or zlib (the source's out-of-scope `fileInfo.file` reference on line
780 is read as the `file` parameter).  The LZ4 output is normalised to
`length` bytes as with `decompress`. -/
def extractChunksCompressed (t : ArchiveType)
    (inflate : List Nat → Option (List Nat))
    (lz4Block : List Nat → Nat → List Nat) (src : List Nat) (pos : Nat) :
    List FO4TextureChunk → EErrorCode → List Nat → EErrorCode × List Nat
  | [], result, out => (result, out)
  | c :: rest, result, out =>
    match readAt src pos c.packedSize with
    | none => (ERROR_INVALIDDATA, out)
    | some chunkBytes =>
      if t = TYPE_STARFIELD_LZ4_TEXTURE then
        let un := lz4Block chunkBytes c.unpackedSize
        extractChunksCompressed t inflate lz4Block src (pos + c.packedSize) rest
          result
          (out ++ (un.take c.unpackedSize ++
            List.replicate (c.unpackedSize - un.length) 0))
      else
        let d := decompress inflate chunkBytes c.packedSize c.unpackedSize
        match d.2.1 with
        | some un =>
          extractChunksCompressed t inflate lz4Block src (pos + c.packedSize) rest
            d.1 (out ++ un)
        | none =>
          extractChunksCompressed t inflate lz4Block src (pos + c.packedSize) rest
            d.1 out

/-- `Archive::extractCompressed` (lines 729-839): the empty-size
guard, then the BA2 branch (plain zlib entry or DDS texture chunks),
the SkyrimSE LZ4-frame branch and the older zlib branch, the latter
two consuming a BString name prefix first when the archive is
name-prefixed.  `lz4Frame` is `LZ4F_decompress`, its output normalised
to the 4-byte uncompressed size read before the payload. -/
def extractCompressed (t : ArchiveType) (archiveFlags : Nat) (file : BFile)
    (src : List Nat) (inflate : List Nat → Option (List Nat))
    (lz4Frame : List Nat → Nat → List Nat)
    (lz4Block : List Nat → Nat → List Nat) : EErrorCode × List Nat :=
  if file.fileSize = 0 then (ERROR_NONE, [])
  else
    let pos := file.dataOffset
    if isBA2 t then
      if file.texChunks.isEmpty then
        match readAt src pos file.fileSize with
        | none => (ERROR_INVALIDDATA, [])
        | some inBuffer =>
          let d := decompress inflate inBuffer file.fileSize file.uncompressedFileSize
          match d.1, d.2.1 with
          | ERROR_NONE, some buf => (ERROR_NONE, buf)
          | ERROR_NONE, none => (ERROR_NONE, [])
          | code, _ => (code, [])
      else
        let r := extractChunksCompressed t inflate lz4Block src pos file.texChunks
          ERROR_NONE (ddsPrefix file.texHeader)
        r
    else if t = TYPE_SKYRIMSE then
      match prefixAdjust t archiveFlags file.fileSize src pos with
      | .none => (ERROR_INVALIDDATA, [])
      | .some none => (ERROR_NONE, [])
      | .some (some a) =>
        match readAt src a.2 4 with
        | none => (ERROR_INVALIDDATA, [])
        | some szb =>
          let outSize := leVal szb
          let inSize := subWrap 32 a.1 4
          match readAt src (a.2 + 4) inSize with
          | none => (ERROR_INVALIDDATA, [])
          | some inBuffer =>
            let un := lz4Frame inBuffer outSize
            (ERROR_NONE,
             un.take outSize ++ List.replicate (outSize - un.length) 0)
    else
      match prefixAdjust t archiveFlags file.fileSize src pos with
      | .none => (ERROR_INVALIDDATA, [])
      | .some none => (ERROR_NONE, [])
      | .some (some a) =>
        match readAt src a.2 a.1 with
        | none => (ERROR_INVALIDDATA, [])
        | some inBuffer =>
          let d := decompress inflate inBuffer a.1 0
          match d.1, d.2.1 with
          | ERROR_NONE, some buf => (ERROR_NONE, buf)
          | ERROR_NONE, none => (ERROR_NONE, [])
          | code, _ => (code, [])

/-- `Archive::extract` (lines 841-858): dispatch on the compression
predicate (the filesystem side — target creation and
`ERROR_ACCESSFAILED` — is outside the byte-level model). -/
def Archive.extract (t : ArchiveType) (archiveFlags : Nat) (file : BFile)
    (src : List Nat) (inflate : List Nat → Option (List Nat))
    (lz4Frame : List Nat → Nat → List Nat)
    (lz4Block : List Nat → Nat → List Nat) : EErrorCode × List Nat :=
  if Archive.compressed t archiveFlags file then
    extractCompressed t archiveFlags file src inflate lz4Frame lz4Block
  else
    extractDirect t archiveFlags file src

/-! ## Bulk-extraction reader (`Archive::readFiles`, lines 860-957)

One loop iteration of the reader thread: produce the work item for one
file.  A `continue` (the name-prefix early skip) is `skipped`; the
enqueued item records the data buffer and its length
(`fileInfo.data.second`), the file object as mutated by the loop, and
the final stream position.  Chunk decompression failures during
assembly (a null-buffer `memcpy` in the source) are modelled as a
stream failure. -/

inductive ReadOneResult where
  | skipped
  | streamError
  | enqueued (dataLen : Nat) (data : List Nat) (file : BFile) (endPos : Nat)
  deriving DecidableEq, Repr

/-- The chunk-assembly loop of `readFiles` (lines 903-943): decompress
or copy each chunk into one contiguous buffer, accumulating the
uncompressed size for the compressed chunks. -/
def assembleChunks (t : ArchiveType) (inflate : List Nat → Option (List Nat))
    (lz4Block : List Nat → Nat → List Nat) (src : List Nat) (pos : Nat)
    (uncAcc : Nat) (out : List Nat) :
    List FO4TextureChunk → Option (List Nat × Nat × Nat)
  | [] => some (out, uncAcc, pos)
  | c :: rest =>
    let length := c.unpackedSize
    if c.packedSize > 0 then
      match readAt src pos c.packedSize with
      | none => none
      | some chunkBytes =>
        if t = TYPE_FALLOUT4 ∨ t = TYPE_STARFIELD then
          let d := decompress inflate chunkBytes c.packedSize length
          match d.2.1 with
          | none => none
          | some un =>
            assembleChunks t inflate lz4Block src (pos + c.packedSize)
              (uncAcc + length) (out ++ un) rest
        else
          let un := lz4Block chunkBytes length
          assembleChunks t inflate lz4Block src (pos + c.packedSize)
            (uncAcc + length) (out ++ (un.take length ++
              List.replicate (length - un.length) 0)) rest
    else
      match readAt src pos length with
      | none => none
      | some chunk =>
        assembleChunks t inflate lz4Block src (pos + length) uncAcc
          (out ++ chunk) rest

/-- One iteration of `Archive::readFiles` (lines 866-956) for one
file: seek to the data offset; in the older layouts consume the
BString name prefix (skipping the file when the stored size is not
larger than the name length), read the 4-byte uncompressed size of a
compressed SkyrimSE entry, then read the payload buffer; in the BA2
layouts read the raw entry (falling back to `m_UncompressedFileSize`
when the stored size is zero) or assemble the texture chunks. -/
def readFilesOne (t : ArchiveType) (archiveFlags : Nat) (file : BFile)
    (src : List Nat) (inflate : List Nat → Option (List Nat))
    (lz4Block : List Nat → Nat → List Nat) : ReadOneResult :=
  let size := file.fileSize
  let pos := file.dataOffset
  if ¬ isBA2 t then
    match prefixAdjust t archiveFlags size src pos with
    | .none => ReadOneResult.streamError
    | .some none => ReadOneResult.skipped
    | .some (some a) =>
      let withSz :
          Option (Nat × Nat × BFile) :=
        if t = TYPE_SKYRIMSE ∧ Archive.compressed t archiveFlags file then
          match readAt src a.2 4 with
          | none => none
          | some szb =>
            some (subWrap 64 a.1 4, a.2 + 4,
              ⟨file.name, file.fileSize, file.dataOffset, leVal szb,
               file.compressToggled, file.texHeader, file.texChunks⟩)
        else some (a.1, a.2, file)
      match withSz with
      | none => ReadOneResult.streamError
      | some (size, pos, file') =>
        if file.texChunks.isEmpty then
          match readAt src pos size with
          | none => ReadOneResult.streamError
          | some data => ReadOneResult.enqueued size data file' (pos + size)
        else
          ReadOneResult.enqueued 0 [] file' pos
  else
    if file.texChunks.isEmpty then
      let size := if size = 0 then file.uncompressedFileSize else size
      match readAt src pos size with
      | none => ReadOneResult.streamError
      | some data => ReadOneResult.enqueued size data file (pos + size)
    else
      let totalSize := (file.texChunks.map (fun c => c.unpackedSize)).sum
      match assembleChunks t inflate lz4Block src pos 0 [] file.texChunks with
      | none => ReadOneResult.streamError
      | some r =>
        ReadOneResult.enqueued totalSize r.1
          ⟨file.name, 0, file.dataOffset, r.2.1, file.compressToggled,
           file.texHeader, file.texChunks⟩ r.2.2

/-! ## Archive writer (`Archive::write`, lines 412-492; `Folder::writeHeader`
/ `Folder::writeData` / `Folder::writeFileData`, part_000 lines 94-122)

The output `std::fstream` is modelled as a write log: the ordered list
of `(position, bytes)` writes, together with the current put position;
a later write at the position of an earlier one overwrites it.  The
writer's input is the flat folder list that `collectFolders` produces
(folders that contain at least one file, with their full paths), since
that is the only view `write` uses. -/

/-- A file as seen by the writer.  `File::writeHeader` /
`File::writeData` are in the missing `bsafile.cpp`; modelled from the
spec: the header record is `{hash:8, size:4, offset:4}` with a
placeholder offset on the first pass, and `writeData` copies the
file's payload to the target, recording the real offset in
`m_OffsetWrite` first. -/
structure WFile where
  hash : Nat
  name : String
  sizeWord : Nat
  payload : List Nat
  offsetWrite : Nat
  deriving DecidableEq, Repr

/-- A folder as seen by the writer: `m_NameHash`, the `getFullPath()`
string, the owned files and the `m_OffsetWrite` write-back slot. -/
structure WFolder where
  nameHash : Nat
  fullPath : String
  files : List WFile
  offsetWrite : Nat
  deriving DecidableEq, Repr

/-- The output stream: put position plus ordered write log. -/
structure OStream where
  pos : Nat
  log : List (Nat × List Nat)
  deriving DecidableEq, Repr

/-- `file.write(...)`: append the bytes at the current position. -/
def OStream.emit (w : OStream) (bs : List Nat) : OStream :=
  ⟨w.pos + bs.length, w.log ++ [(w.pos, bs)]⟩

/-- `file.seekp(p, beg)`. -/
def OStream.seekp (w : OStream) (p : Nat) : OStream := ⟨p, w.log⟩

/-- Modelled from the spec: `writeBString` — 1-byte length prefix then
the characters, no terminator. -/
def bstringBytes (s : String) : List Nat :=
  s.length % 256 :: s.toList.map Char.toNat

/-- `writeZString`: the characters then a single NUL. -/
def zstringBytes (s : String) : List Nat :=
  s.toList.map Char.toNat ++ [0]

/-- `Folder::writeHeader` (part_000 lines 94-99): `{hash:8,
fileCount:4, offsetWrite:4}`. -/
def folderRecordBytes (f : WFolder) : List Nat :=
  leBytes 8 f.nameHash ++ leBytes 4 f.files.length ++ leBytes 4 f.offsetWrite

/-- Modelled from the spec: `File::writeHeader` — `{hash:8, size:4,
offset:4}`. -/
def fileRecordBytes (fl : WFile) : List Nat :=
  leBytes 8 fl.hash ++ leBytes 4 fl.sizeWord ++ leBytes 4 fl.offsetWrite

/-- The `writeHeader` loops of `Archive::write` (lines 450-453 and
476-479): emit each folder's record. -/
def writeFolderHeaders (folders : List WFolder) (w : OStream) : OStream :=
  folders.foldl (fun w f => w.emit (folderRecordBytes f)) w

/-- `Folder::writeData` (part_000 lines 101-109): record
`m_OffsetWrite := tellp() + fileNamesLength`, emit the BString full
path and then each file's record. -/
def writeOneFolderData (fileNamesLength : Nat) (f : WFolder) (w : OStream) :
    WFolder × OStream :=
  let f' : WFolder := ⟨f.nameHash, f.fullPath, f.files, w.pos + fileNamesLength⟩
  let w := w.emit (bstringBytes f.fullPath)
  (f', f.files.foldl (fun w fl => w.emit (fileRecordBytes fl)) w)

/-- The `writeData` loops of `Archive::write` (lines 455-458 and
481-484). -/
def writeFolderData (fileNamesLength : Nat) (folders : List WFolder)
    (w : OStream) : List WFolder × OStream :=
  folders.foldl (fun acc f =>
    let r := writeOneFolderData fileNamesLength f acc.2
    (acc.1 ++ [r.1], r.2)) ([], w)

/-- The file-name table loop (lines 461-464). -/
def writeFileNames (names : List String) (w : OStream) : OStream :=
  names.foldl (fun w n => w.emit (zstringBytes n)) w

/-- Modelled from the spec: `File::writeData` — record the real data
offset, then copy the payload bytes from the source archive. -/
def writeOneFileData (fl : WFile) (w : OStream) : WFile × OStream :=
  let fl' : WFile := ⟨fl.hash, fl.name, fl.sizeWord, fl.payload, w.pos⟩
  (fl', w.emit fl.payload)

/-- `Folder::writeFileData` over all folders (lines 467-470 and
part_000 lines 111-122). -/
def writeFileData (folders : List WFolder) (w : OStream) :
    List WFolder × OStream :=
  folders.foldl (fun acc f =>
    let r := f.files.foldl (fun acc2 fl =>
      let rr := writeOneFileData fl acc2.2
      (acc2.1 ++ [rr.1], rr.2)) (([] : List WFile), acc.2)
    (acc.1 ++ [⟨f.nameHash, f.fullPath, r.1, f.offsetWrite⟩], r.2)) ([], w)

/-- `endsWith` (lines 340-347), case-insensitive. -/
def endsWithCI (fileName : String) (extension : String) : Bool :=
  extension.length ≤ fileName.length ∧
    fileName.toLower.endsWith extension

/-- `Archive::determineFileFlags` (lines 349-395): one bit per known
extension present in the file list (the `hasX` guards are reflected in
the already-set result bits). -/
def determineFileFlags (fileList : List String) : Nat :=
  fileList.foldl (fun acc name =>
    if acc.testBit 0 = false ∧ endsWithCI name ".nif" then acc ||| (1 <<< 0)
    else if acc.testBit 1 = false ∧ endsWithCI name ".dds" then acc ||| (1 <<< 1)
    else if acc.testBit 2 = false ∧ endsWithCI name ".xml" then acc ||| (1 <<< 2)
    else if acc.testBit 3 = false ∧ endsWithCI name ".wav" then acc ||| (1 <<< 3)
    else if acc.testBit 4 = false ∧ endsWithCI name ".mp3" then acc ||| (1 <<< 4)
    else if acc.testBit 5 = false ∧ endsWithCI name ".txt" then acc ||| (1 <<< 5)
    else if acc.testBit 6 = false ∧ endsWithCI name ".spt" then acc ||| (1 <<< 6)
    else if acc.testBit 7 = false ∧ endsWithCI name ".tex" then acc ||| (1 <<< 7)
    else if acc.testBit 8 = false ∧ endsWithCI name ".ctl" then acc ||| (1 <<< 8)
    else acc) 0

/-- `Archive::writeHeader` (lines 397-410): the static 0x24-byte
header. -/
def archiveHeaderBytes (t : ArchiveType) (archiveFlags fileFlags numFolders
    numFiles folderNamesLength fileNamesLength : Nat) : List Nat :=
  [0x42, 0x53, 0x41, 0x00] ++ leBytes 4 (typeToID t) ++ leBytes 4 0x24 ++
  leBytes 4 archiveFlags ++ leBytes 4 numFolders ++ leBytes 4 numFiles ++
  leBytes 4 folderNamesLength ++ leBytes 4 fileNamesLength ++ leBytes 4 fileFlags

/-- `Archive::write` (lines 412-492): collect names and lengths, write
the header, the placeholder folder/file records and name blocks, the
file-name table and the file payloads, then seek back to 0x24 and
rewrite the folder/file records with the recorded offsets.  Returns
the final stream and folder states. -/
def Archive.write (t : ArchiveType) (archiveFlags : Nat)
    (folders : List WFolder) : OStream × List WFolder :=
  let fileNames := folders.flatMap (fun f => f.files.map (fun fl => fl.name))
  let folderNamesLength := (folders.map (fun f => f.fullPath.length)).sum
  let fileNamesLength := (fileNames.map String.length).sum
  let numFiles := (folders.map (fun f => f.files.length)).sum
  let w0 := OStream.emit ⟨0, []⟩ (archiveHeaderBytes t archiveFlags
    (determineFileFlags fileNames) folders.length numFiles folderNamesLength
    fileNamesLength)
  let w1 := writeFolderHeaders folders w0
  let r2 := writeFolderData fileNamesLength folders w1
  let w3 := writeFileNames fileNames r2.2
  let r4 := writeFileData r2.1 w3
  let w5 := OStream.seekp r4.2 0x24
  let w6 := writeFolderHeaders r4.1 w5
  let r7 := writeFolderData fileNamesLength r4.1 w6
  (r7.2, r7.1)

/-! ## Reasoning infrastructure for the parse monad -/

theorem Parse.bind_apply {α β : Type} (p : Parse α) (f : α → Parse β)
    (s : IStream) :
    (p >>= f) s =
      match p s with
      | .error e => .error e
      | .ok (a, s₁) => f a s₁ := rfl

theorem Parse.pure_apply {α : Type} (a : α) (s : IStream) :
    (pure a : Parse α) s = .ok (a, s) := rfl

theorem Parse.ite_apply {α : Type} (c : Prop) [Decidable c] (p q : Parse α)
    (s : IStream) :
    (if c then p else q) s = if c then p s else q s := by
  split <;> rfl

theorem Parse.fail_apply {α : Type} (s : IStream) :
    (Parse.fail : Parse α) s = .error BsaErr.dataInvalid := rfl

/-- Invert a successful bind. -/
theorem Parse.bind_ok {α β : Type} {p : Parse α} {f : α → Parse β}
    {s s' : IStream} {b : β} (h : (p >>= f) s = .ok (b, s')) :
    ∃ a s₁, p s = .ok (a, s₁) ∧ f a s₁ = .ok (b, s') := by
  rw [Parse.bind_apply] at h
  rcases hp : p s with e | as₁
  · rw [hp] at h; exact absurd h (by simp)
  · rw [hp] at h
    exact ⟨as₁.1, as₁.2, rfl, h⟩

/-- Reading four little-endian bytes at the current position. -/
theorem readU32_ok (d : List Nat) (p v : Nat) (hv : v < 2 ^ 32)
    (hlen : p + 4 ≤ d.length) (h : (d.drop p).take 4 = leBytes 4 v) :
    readU32 ⟨d, p⟩ = .ok (v, ⟨d, p + 4⟩) := by
  have : readBytes 4 ⟨d, p⟩ = .ok ((d.drop p).take 4, ⟨d, p + 4⟩) := by
    simp [readBytes, hlen]
  simp only [readU32, Parse.bind_apply, this, h, Parse.pure_apply]
  have := leVal_leBytes 4 v (by norm_num at hv ⊢; omega)
  rw [this]

/-- Master inversion lemma for a successful `readHeader`: the magic is
the first 4-byte word; for the non-Morrowind magics the version word
determines the type through `typeFromID`, and every BA2-typed header
has the default archive flags (bit 2, default-compressed, clear). -/
theorem readHeader_ok_cases (s s' : IStream) (hd : Header)
    (hok : readHeader s = .ok (hd, s')) :
    ∃ fid s₁, readU32 s = .ok (fid, s₁) ∧
      ((fid = 0x100 ∧ hd.type = TYPE_MORROWIND ∧
        hd.archiveFlags = FLAG_HASDIRNAMES ||| FLAG_HASFILENAMES) ∨
       (fid ≠ 0x100 ∧ ∃ v s₂, readU32 s₁ = .ok (v, s₂) ∧
        typeFromID v = .ok hd.type ∧
        (isBA2 hd.type →
          hd.archiveFlags = FLAG_HASDIRNAMES ||| FLAG_HASFILENAMES))) := by
  unfold readHeader at hok
  obtain ⟨fid, s₁, hfid, hok⟩ := Parse.bind_ok hok
  refine ⟨fid, s₁, hfid, ?_⟩
  rw [Parse.ite_apply] at hok
  split at hok
  · rw [Parse.fail_apply] at hok; exact absurd hok (by simp)
  · rw [Parse.ite_apply] at hok
    split at hok
    case isTrue hne =>
      refine Or.inr ⟨hne, ?_⟩
      obtain ⟨v, s₂, hv, hok⟩ := Parse.bind_ok hok
      refine ⟨v, s₂, hv, ?_⟩
      rcases htv : typeFromID v with e | ty
      · simp only [htv] at hok
        exact absurd hok (by simp)
      · simp only [htv] at hok
        rw [Parse.ite_apply] at hok
        split at hok
        case isTrue hba2 =>
          obtain ⟨a₁, t₁, -, hok⟩ := Parse.bind_ok hok
          obtain ⟨a₂, t₂, -, hok⟩ := Parse.bind_ok hok
          obtain ⟨a₃, t₃, -, hok⟩ := Parse.bind_ok hok
          rw [Parse.pure_apply] at hok
          simp only [Except.ok.injEq, Prod.mk.injEq] at hok
          obtain ⟨hhd, -⟩ := hok
          subst hhd
          exact ⟨rfl, fun _ => rfl⟩
        case isFalse hba2 =>
          obtain ⟨a₁, t₁, -, hok⟩ := Parse.bind_ok hok
          obtain ⟨a₂, t₂, -, hok⟩ := Parse.bind_ok hok
          obtain ⟨a₃, t₃, -, hok⟩ := Parse.bind_ok hok
          obtain ⟨a₄, t₄, -, hok⟩ := Parse.bind_ok hok
          obtain ⟨a₅, t₅, -, hok⟩ := Parse.bind_ok hok
          obtain ⟨a₆, t₆, -, hok⟩ := Parse.bind_ok hok
          obtain ⟨a₇, t₇, -, hok⟩ := Parse.bind_ok hok
          rw [Parse.pure_apply] at hok
          simp only [Except.ok.injEq, Prod.mk.injEq] at hok
          obtain ⟨hhd, -⟩ := hok
          subst hhd
          exact ⟨rfl, fun hb => absurd hb (by simpa using hba2)⟩
    case isFalse hne =>
      obtain ⟨a₁, t₁, -, hok⟩ := Parse.bind_ok hok
      obtain ⟨a₂, t₂, -, hok⟩ := Parse.bind_ok hok
      rw [Parse.pure_apply] at hok
      simp only [Except.ok.injEq, Prod.mk.injEq] at hok
      obtain ⟨hhd, -⟩ := hok
      subst hhd
      exact Or.inl ⟨by omega, rfl, rfl⟩

/-! ## Claim theorems -/

/-- C2: for every file of an older-layout (non-BTDX,
non-Morrowind-specific) archive, the public `compressed(file)`
predicate equals the archive's default-compressed flag XOR the file's
per-file toggle bit; for a Fallout 4 archive, `compressed(file)` holds
iff the file's `packedSize` (its stored size) is greater than 0. -/
theorem c2_compression_predicate (t : ArchiveType) (archiveFlags : Nat)
    (file : BFile) (fileName : String) (r : GNRLRec)
    (ht : t = TYPE_OBLIVION ∨ t = TYPE_FALLOUT3 ∨ t = TYPE_SKYRIMSE) :
    Archive.compressed t archiveFlags file =
      xor (defaultCompressed archiveFlags) file.compressToggled ∧
    (Archive.compressed TYPE_FALLOUT4 archiveFlags (gnrlBFile fileName r) =
      decide (r.packedSize > 0)) := by
  constructor
  · rcases ht with h | h | h <;> subst h <;>
      simp [Archive.compressed, Bool.xor_comm]
  · simp [Archive.compressed, gnrlBFile]

/-- Witness for C2 at a concrete older-layout file (toggle set,
default-compressed clear) and a concrete GNRL record. -/
theorem c2_compression_predicate_witness :
    Archive.compressed TYPE_OBLIVION 0x2
      ⟨"a.nif", 16, 0, 0, true, FO4TextureHeader.init, []⟩ =
      xor (defaultCompressed 0x2)
        (BFile.compressToggled ⟨"a.nif", 16, 0, 0, true, FO4TextureHeader.init, []⟩) ∧
    (Archive.compressed TYPE_FALLOUT4 0x2
      (gnrlBFile "b.dds" ⟨0, [0, 0, 0, 0], 0, 64, 0, 32⟩) =
      decide (GNRLRec.packedSize ⟨0, [0, 0, 0, 0], 0, 64, 0, 32⟩ > 0)) :=
  c2_compression_predicate TYPE_OBLIVION 0x2
    ⟨"a.nif", 16, 0, 0, true, FO4TextureHeader.init, []⟩ "b.dds"
    ⟨0, [0, 0, 0, 0], 0, 64, 0, 32⟩ (Or.inl rfl)

/-- C9 (implicit): for Starfield and Starfield-LZ4-Texture archives
the `compressed(file)` predicate is the XOR-toggle rule, not the
`packedSize > 0` test; the header reader leaves the
default-compressed flag clear for every BA2-typed header, so for those
archives `compressed(file)` reduces to the per-file toggle bit. -/
theorem c9_starfield_xor_toggle (s s' : IStream) (hd : Header) (file : BFile)
    (hok : readHeader s = .ok (hd, s')) (hba2 : isBA2 hd.type = true) :
    defaultCompressed hd.archiveFlags = false ∧
    ((hd.type = TYPE_STARFIELD ∨ hd.type = TYPE_STARFIELD_LZ4_TEXTURE) →
      Archive.compressed hd.type hd.archiveFlags file =
        xor file.compressToggled (defaultCompressed hd.archiveFlags) ∧
      Archive.compressed hd.type hd.archiveFlags file = file.compressToggled) := by
  obtain ⟨fid, s₁, -, hcases⟩ := readHeader_ok_cases s s' hd hok
  have hflags : hd.archiveFlags = FLAG_HASDIRNAMES ||| FLAG_HASFILENAMES := by
    rcases hcases with ⟨-, -, hfl⟩ | ⟨-, v, s₂, -, -, hfl⟩
    · exact hfl
    · exact hfl hba2
  have hdc : defaultCompressed hd.archiveFlags = false := by
    rw [hflags]; decide
  refine ⟨hdc, fun hsf => ?_⟩
  have hne : hd.type ≠ TYPE_FALLOUT4 := by
    rcases hsf with h | h <;> rw [h] <;> intro hc <;> exact absurd hc (by decide)
  constructor
  · simp [Archive.compressed, hne]
  · simp [Archive.compressed, hne, hdc]

/-- Witness for C9: a concrete Starfield GNRL header (magic `BTDX`,
version 2) parsed by `readHeader`, and a toggled file. -/
theorem c9_starfield_xor_toggle_witness :
    ∃ hd s', readHeader ⟨leBytes 4 0x58445442 ++ leBytes 4 0x02 ++
      [0x47, 0x4E, 0x52, 0x4C] ++ leBytes 4 0 ++ leBytes 8 0, 0⟩ = .ok (hd, s') ∧
      (defaultCompressed hd.archiveFlags = false ∧
       ((hd.type = TYPE_STARFIELD ∨ hd.type = TYPE_STARFIELD_LZ4_TEXTURE) →
         Archive.compressed hd.type hd.archiveFlags
             ⟨"a.mat", 5, 64, 9, true, FO4TextureHeader.init, []⟩ =
           xor true (defaultCompressed hd.archiveFlags) ∧
         Archive.compressed hd.type hd.archiveFlags
             ⟨"a.mat", 5, 64, 9, true, FO4TextureHeader.init, []⟩ = true)) := by
  refine ⟨⟨0x58445442, [0x47, 0x4E, 0x52, 0x4C], TYPE_STARFIELD, 0,
    FLAG_HASDIRNAMES ||| FLAG_HASFILENAMES, 0, 0, 0, 0, 0, 0⟩,
    ⟨leBytes 4 0x58445442 ++ leBytes 4 0x02 ++
      [0x47, 0x4E, 0x52, 0x4C] ++ leBytes 4 0 ++ leBytes 8 0, 24⟩, by decide, ?_⟩
  exact c9_starfield_xor_toggle
    ⟨leBytes 4 0x58445442 ++ leBytes 4 0x02 ++
      [0x47, 0x4E, 0x52, 0x4C] ++ leBytes 4 0 ++ leBytes 8 0, 0⟩
    ⟨leBytes 4 0x58445442 ++ leBytes 4 0x02 ++
      [0x47, 0x4E, 0x52, 0x4C] ++ leBytes 4 0 ++ leBytes 8 0, 24⟩
    ⟨0x58445442, [0x47, 0x4E, 0x52, 0x4C], TYPE_STARFIELD, 0,
      FLAG_HASDIRNAMES ||| FLAG_HASFILENAMES, 0, 0, 0, 0, 0, 0⟩
    ⟨"a.mat", 5, 64, 9, true, FO4TextureHeader.init, []⟩ (by decide) (by decide)

/-- C10 (implicit): for every file whose stored size field is 0, both
`extractDirect` and `extractCompressed` return `ERROR_NONE`
immediately and write nothing to the output file — in particular no
texture chunks are considered before this guard. -/
theorem c10_empty_file_guard (t : ArchiveType) (archiveFlags : Nat)
    (file : BFile) (src : List Nat) (inflate : List Nat → Option (List Nat))
    (lz4Frame lz4Block : List Nat → Nat → List Nat)
    (h : file.fileSize = 0) :
    extractDirect t archiveFlags file src = (ERROR_NONE, []) ∧
    extractCompressed t archiveFlags file src inflate lz4Frame lz4Block =
      (ERROR_NONE, []) := by
  rw [extractDirect, extractCompressed]
  simp [h]

/-- Witness for C10: a Fallout 4 texture file with chunks but stored
size 0 extracts to an empty output on both paths. -/
theorem c10_empty_file_guard_witness :
    extractDirect TYPE_FALLOUT4 0x3
      ⟨"t.dds", 0, 8, 4, false, FO4TextureHeader.init, [⟨8, 0, 4, 0, 0, 0⟩]⟩
      [1, 2, 3, 4, 5, 6, 7, 8, 9, 10, 11, 12] = (ERROR_NONE, []) ∧
    extractCompressed TYPE_FALLOUT4 0x3
      ⟨"t.dds", 0, 8, 4, false, FO4TextureHeader.init, [⟨8, 0, 4, 0, 0, 0⟩]⟩
      [1, 2, 3, 4, 5, 6, 7, 8, 9, 10, 11, 12] (fun _ => none)
      (fun _ _ => []) (fun _ _ => []) = (ERROR_NONE, []) :=
  c10_empty_file_guard TYPE_FALLOUT4 0x3
    ⟨"t.dds", 0, 8, 4, false, FO4TextureHeader.init, [⟨8, 0, 4, 0, 0, 0⟩]⟩
    [1, 2, 3, 4, 5, 6, 7, 8, 9, 10, 11, 12] (fun _ => none)
    (fun _ _ => []) (fun _ _ => []) rfl

/-- The tree after inserting `a/b/c/one.nif` into an empty root via
`addFolderFromFile` (hash instantiated with the zero function — the
hash values play no role in insertion). -/
def c8TreeOnce : FTree :=
  (addFolderFromFile (fun _ => 0) (rootFolder (fun _ => 0)) "a/b/c/one.nif"
    4 0 0 FO4TextureHeader.init []).1

/-- The tree after inserting `a/b/c/two.nif` on top of `c8TreeOnce`. -/
def c8TreeTwice : FTree :=
  (addFolderFromFile (fun _ => 0) c8TreeOnce "a/b/c/two.nif"
    8 16 0 FO4TextureHeader.init []).1

/-- C8: inserting the path `a/b/c` into the folder tree twice (via
`addFolderFromFile`) yields exactly one folder node for each of the
segments `a`, `b` and `c`, and the file of the second insertion is
attached to the same deepest folder (`a/b/c`) as the file of the
first. -/
theorem c8_insertion_idempotent :
    childCountNamed c8TreeTwice "a" = 1 ∧
    (folderAt c8TreeTwice ["a"]).map (fun f => childCountNamed f "b") = some 1 ∧
    (folderAt c8TreeTwice ["a", "b"]).map (fun f => childCountNamed f "c") =
      some 1 ∧
    fileNamesAt c8TreeTwice ["a", "b", "c"] = some ["one.nif", "two.nif"] := by
  decide

/-- The DXGI formats handled by `getDDSHeader`'s switch. -/
def supportedDXGIFormats : List Nat :=
  [DXGI_FORMAT_BC1_UNORM, DXGI_FORMAT_BC1_UNORM_SRGB,
   DXGI_FORMAT_BC2_UNORM, DXGI_FORMAT_BC2_UNORM_SRGB,
   DXGI_FORMAT_BC3_UNORM, DXGI_FORMAT_BC3_UNORM_SRGB,
   DXGI_FORMAT_BC4_UNORM, DXGI_FORMAT_BC5_UNORM, DXGI_FORMAT_BC5_SNORM,
   DXGI_FORMAT_BC7_UNORM, DXGI_FORMAT_BC7_UNORM_SRGB,
   DXGI_FORMAT_R8G8B8A8_UNORM, DXGI_FORMAT_B8G8R8A8_UNORM,
   DXGI_FORMAT_B8G8R8X8_UNORM, DXGI_FORMAT_R8_UNORM]

/-- C3, counterexample: for a texture entry with an unsupported DXGI
format (here `DXGI_FORMAT_UNKNOWN = 0`) and `unknown2 = 2049`,
`getDDSHeader` returns the zeroed header (`return {};`), so the
claimed flags/caps values and the cubemap `caps2` equivalence all
fail. -/
theorem c3_dds_header_counterexample :
    ¬ ((getDDSHeader ⟨0, [], 0, 0, 1, 0, 256, 256, 9, 0, 2049⟩
          DDS_HEADER_DXT10.zero).hdr.flags =
        DDS_HEADER_FLAGS_TEXTURE ||| DDS_HEADER_FLAGS_LINEARSIZE |||
          DDS_HEADER_FLAGS_MIPMAP ∧
       (getDDSHeader ⟨0, [], 0, 0, 1, 0, 256, 256, 9, 0, 2049⟩
          DDS_HEADER_DXT10.zero).hdr.caps =
        DDS_SURFACE_FLAGS_TEXTURE ||| DDS_SURFACE_FLAGS_MIPMAP ∧
       ((getDDSHeader ⟨0, [], 0, 0, 1, 0, 256, 256, 9, 0, 2049⟩
          DDS_HEADER_DXT10.zero).hdr.caps2 = DDS_CUBEMAP_ALLFACES ↔
        FO4TextureHeader.unknown2 ⟨0, [], 0, 0, 1, 0, 256, 256, 9, 0, 2049⟩ =
          2049)) := by
  decide

/-- C3, amended: for every texture entry whose DXGI format is one of
the supported table entries, the synthesized DDS header has flags
`TEXTURE|LINEARSIZE|MIPMAP` and caps `TEXTURE|MIPMAP`, its `caps2`
equals `CUBEMAP_ALLFACES` iff the texture header's `unknown2` equals
2049, and whenever the DX10 extension is emitted its fields are
`resourceDimension = TEXTURE2D`, `miscFlag = 0`, `arraySize = 1`,
`miscFlags2 = 0`. -/
theorem c3_dds_header_amended (tex : FO4TextureHeader)
    (dx10In : DDS_HEADER_DXT10) (hf : tex.format ∈ supportedDXGIFormats) :
    (getDDSHeader tex dx10In).hdr.flags =
      DDS_HEADER_FLAGS_TEXTURE ||| DDS_HEADER_FLAGS_LINEARSIZE |||
        DDS_HEADER_FLAGS_MIPMAP ∧
    (getDDSHeader tex dx10In).hdr.caps =
      DDS_SURFACE_FLAGS_TEXTURE ||| DDS_SURFACE_FLAGS_MIPMAP ∧
    ((getDDSHeader tex dx10In).hdr.caps2 = DDS_CUBEMAP_ALLFACES ↔
      tex.unknown2 = 2049) ∧
    ((getDDSHeader tex dx10In).isDX10 = true →
      (getDX10Header (getDDSHeader tex dx10In).dx10).resourceDimension =
        DDS_DIMENSION_TEXTURE2D ∧
      (getDX10Header (getDDSHeader tex dx10In).dx10).miscFlag = 0 ∧
      (getDX10Header (getDDSHeader tex dx10In).dx10).arraySize = 1 ∧
      (getDX10Header (getDDSHeader tex dx10In).dx10).miscFlags2 = 0) := by
  have hcaps2 : ∀ u : Nat,
      ((if u = 2049 then DDS_CUBEMAP_ALLFACES else 0) = DDS_CUBEMAP_ALLFACES ↔
        u = 2049) := by
    intro u
    split_ifs with h <;> simp [h, DDS_CUBEMAP_ALLFACES]
  simp only [supportedDXGIFormats, DXGI_FORMAT_BC1_UNORM,
    DXGI_FORMAT_BC1_UNORM_SRGB, DXGI_FORMAT_BC2_UNORM,
    DXGI_FORMAT_BC2_UNORM_SRGB, DXGI_FORMAT_BC3_UNORM,
    DXGI_FORMAT_BC3_UNORM_SRGB, DXGI_FORMAT_BC4_UNORM, DXGI_FORMAT_BC5_UNORM,
    DXGI_FORMAT_BC5_SNORM, DXGI_FORMAT_BC7_UNORM, DXGI_FORMAT_BC7_UNORM_SRGB,
    DXGI_FORMAT_R8G8B8A8_UNORM, DXGI_FORMAT_B8G8R8A8_UNORM,
    DXGI_FORMAT_B8G8R8X8_UNORM, DXGI_FORMAT_R8_UNORM,
    List.mem_cons, List.not_mem_nil, or_false] at hf
  rcases hf with h | h | h | h | h | h | h | h | h | h | h | h | h | h | h <;>
    simp [getDDSHeader, getDX10Header, h, DXGI_FORMAT_BC1_UNORM,
      DXGI_FORMAT_BC1_UNORM_SRGB, DXGI_FORMAT_BC2_UNORM,
      DXGI_FORMAT_BC2_UNORM_SRGB, DXGI_FORMAT_BC3_UNORM,
      DXGI_FORMAT_BC3_UNORM_SRGB, DXGI_FORMAT_BC4_UNORM, DXGI_FORMAT_BC5_UNORM,
      DXGI_FORMAT_BC5_SNORM, DXGI_FORMAT_BC7_UNORM, DXGI_FORMAT_BC7_UNORM_SRGB,
      DXGI_FORMAT_R8G8B8A8_UNORM, DXGI_FORMAT_B8G8R8A8_UNORM,
      DXGI_FORMAT_B8G8R8X8_UNORM, DXGI_FORMAT_R8_UNORM, hcaps2,
      DDS_DIMENSION_TEXTURE2D]

/-- Witness for C3 (amended) at a BC7 256×256 cubemap texture (the
DX10 extension is emitted for BC7). -/
theorem c3_dds_header_amended_witness :
    (getDDSHeader ⟨0, [], 0, 0, 1, 0, 256, 256, 9, DXGI_FORMAT_BC7_UNORM, 2049⟩
        DDS_HEADER_DXT10.zero).hdr.flags =
      DDS_HEADER_FLAGS_TEXTURE ||| DDS_HEADER_FLAGS_LINEARSIZE |||
        DDS_HEADER_FLAGS_MIPMAP ∧
    (getDDSHeader ⟨0, [], 0, 0, 1, 0, 256, 256, 9, DXGI_FORMAT_BC7_UNORM, 2049⟩
        DDS_HEADER_DXT10.zero).hdr.caps =
      DDS_SURFACE_FLAGS_TEXTURE ||| DDS_SURFACE_FLAGS_MIPMAP ∧
    ((getDDSHeader ⟨0, [], 0, 0, 1, 0, 256, 256, 9, DXGI_FORMAT_BC7_UNORM, 2049⟩
        DDS_HEADER_DXT10.zero).hdr.caps2 = DDS_CUBEMAP_ALLFACES ↔
      FO4TextureHeader.unknown2
        ⟨0, [], 0, 0, 1, 0, 256, 256, 9, DXGI_FORMAT_BC7_UNORM, 2049⟩ = 2049) ∧
    ((getDDSHeader ⟨0, [], 0, 0, 1, 0, 256, 256, 9, DXGI_FORMAT_BC7_UNORM, 2049⟩
        DDS_HEADER_DXT10.zero).isDX10 = true →
      (getDX10Header (getDDSHeader
        ⟨0, [], 0, 0, 1, 0, 256, 256, 9, DXGI_FORMAT_BC7_UNORM, 2049⟩
        DDS_HEADER_DXT10.zero).dx10).resourceDimension =
          DDS_DIMENSION_TEXTURE2D ∧
      (getDX10Header (getDDSHeader
        ⟨0, [], 0, 0, 1, 0, 256, 256, 9, DXGI_FORMAT_BC7_UNORM, 2049⟩
        DDS_HEADER_DXT10.zero).dx10).miscFlag = 0 ∧
      (getDX10Header (getDDSHeader
        ⟨0, [], 0, 0, 1, 0, 256, 256, 9, DXGI_FORMAT_BC7_UNORM, 2049⟩
        DDS_HEADER_DXT10.zero).dx10).arraySize = 1 ∧
      (getDX10Header (getDDSHeader
        ⟨0, [], 0, 0, 1, 0, 256, 256, 9, DXGI_FORMAT_BC7_UNORM, 2049⟩
        DDS_HEADER_DXT10.zero).dx10).miscFlags2 = 0) :=
  c3_dds_header_amended
    ⟨0, [], 0, 0, 1, 0, 256, 256, 9, DXGI_FORMAT_BC7_UNORM, 2049⟩
    DDS_HEADER_DXT10.zero (by decide)

/-- C4 (evaluation at the failing input): extracting an uncompressed
4-byte file of an older-layout (Fallout 3 / Skyrim LE) archive via
`extract` writes the 4 payload bytes and then — through the leftover
copy loop at the end of `extractDirect` — another `m_FileSize` bytes
read from the stream position past the payload: 8 bytes in total, not
the 4 the specification requires. -/
theorem c4_raw_extract_trailing_copy :
    Archive.extract TYPE_FALLOUT3 (FLAG_HASDIRNAMES ||| FLAG_HASFILENAMES)
      ⟨"raw.bin", 4, 0, 0, false, FO4TextureHeader.init, []⟩
      [1, 2, 3, 4, 10, 11, 12, 13] (fun _ => none) (fun _ _ => [])
      (fun _ _ => []) =
      (ERROR_NONE, [1, 2, 3, 4] ++ [10, 11, 12, 13]) ∧
    (Archive.extract TYPE_FALLOUT3 (FLAG_HASDIRNAMES ||| FLAG_HASFILENAMES)
      ⟨"raw.bin", 4, 0, 0, false, FO4TextureHeader.init, []⟩
      [1, 2, 3, 4, 10, 11, 12, 13] (fun _ => none) (fun _ _ => [])
      (fun _ _ => [])).2.length ≠
      BFile.fileSize ⟨"raw.bin", 4, 0, 0, false, FO4TextureHeader.init, []⟩ := by
  decide

/-- C5 (evaluation at the failing input): a GNRL record with
`packedSize = 0` and `unpackedSize = 4` parses to a `File` whose
stored size is 0, so `compressed` is false, `extract` dispatches to
`extractDirect`, and the empty-size guard returns `ERROR_NONE` with an
empty output — the 4 raw bytes at the file's offset are never
copied. -/
theorem c5_gnrl_raw_not_extracted :
    readGNRLRecord ⟨leBytes 4 0 ++ [0, 0, 0, 0] ++ leBytes 4 0 ++ leBytes 4 0 ++
        leBytes 8 0 ++ leBytes 4 0 ++ leBytes 4 4 ++ leBytes 4 0, 0⟩ =
      .ok (⟨0, [0, 0, 0, 0], 0, 0, 0, 4⟩,
        ⟨leBytes 4 0 ++ [0, 0, 0, 0] ++ leBytes 4 0 ++ leBytes 4 0 ++
          leBytes 8 0 ++ leBytes 4 0 ++ leBytes 4 4 ++ leBytes 4 0, 36⟩) ∧
    (gnrlBFile "f.bin" ⟨0, [0, 0, 0, 0], 0, 0, 0, 4⟩).fileSize = 0 ∧
    GNRLRec.unpackedSize ⟨0, [0, 0, 0, 0], 0, 0, 0, 4⟩ = 4 ∧
    Archive.extract TYPE_FALLOUT4 (FLAG_HASDIRNAMES ||| FLAG_HASFILENAMES)
      (gnrlBFile "f.bin" ⟨0, [0, 0, 0, 0], 0, 0, 0, 4⟩)
      [9, 9, 9, 9] (fun _ => none) (fun _ _ => []) (fun _ _ => []) =
      (ERROR_NONE, []) := by
  decide

/-- C6, counterexample: for a SkyrimSE *compressed* name-prefixed file
(stored size 10, prefix length 2) the reader consumes the prefix
(3 bytes) and then the 4-byte uncompressed-size word, so the buffer it
enqueues — the bytes handed to the LZ4-frame decompressor — has length
3, not `stored_size - (1 + prefixLen) = 7`. -/
theorem c6_name_prefix_counterexample :
    readFilesOne TYPE_SKYRIMSE FLAG_NAMEPREFIXED
      ⟨"x.bin", 10, 0, 0, true, FO4TextureHeader.init, []⟩
      ([2, 65, 66] ++ [1, 0, 0, 0] ++ [7, 8, 9]) (fun _ => none)
      (fun _ _ => []) =
      ReadOneResult.enqueued 3 [7, 8, 9]
        ⟨"x.bin", 10, 0, 1, true, FO4TextureHeader.init, []⟩ 10 ∧
    3 ≠ 10 - (1 + 2) := by
  decide

/-- C6, amended: for every chunk-less file of a name-prefixed older
archive (flag 0x100 set, variant other than Oblivion), given that the
BString prefix is shorter than the stored size, the reader consumes
the prefix and the payload region after it spans exactly
`stored_size - (1 + prefixLen)` bytes (the stream ends up at
`dataOffset + stored_size`); the buffer enqueued for the
writer/decompressor is that whole region — of length
`stored_size - (1 + prefixLen)` — except for a SkyrimSE compressed
entry, where the region's first 4 bytes are the uncompressed-size word
and the decompressor receives `stored_size - (1 + prefixLen) - 4`
bytes. -/
theorem c6_name_prefix_amended (t : ArchiveType) (archiveFlags : Nat)
    (file : BFile) (src : List Nat) (inflate : List Nat → Option (List Nat))
    (lz4Block : List Nat → Nat → List Nat) (L : Nat)
    (hba2 : isBA2 t = false) (hob : t ≠ TYPE_OBLIVION)
    (hflag : archiveFlags &&& FLAG_NAMEPREFIXED ≠ 0)
    (hchunks : file.texChunks = [])
    (hfs : file.fileSize < 2 ^ 32)
    (hL : leVal ((src.drop file.dataOffset).take 1) = L)
    (hLlt : L < file.fileSize)
    (hlen : file.dataOffset + file.fileSize ≤ src.length)
    (hse : t = TYPE_SKYRIMSE ∧ Archive.compressed t archiveFlags file = true →
      1 + L + 4 ≤ file.fileSize) :
    ∃ file',
      readFilesOne t archiveFlags file src inflate lz4Block =
        ReadOneResult.enqueued
          (file.fileSize - (1 + L) -
            (if t = TYPE_SKYRIMSE ∧ Archive.compressed t archiveFlags file = true
              then 4 else 0))
          ((src.drop (file.dataOffset + 1 + L +
            (if t = TYPE_SKYRIMSE ∧ Archive.compressed t archiveFlags file = true
              then 4 else 0))).take
            (file.fileSize - (1 + L) -
              (if t = TYPE_SKYRIMSE ∧
                  Archive.compressed t archiveFlags file = true
                then 4 else 0)))
          file' (file.dataOffset + file.fileSize) := by
  have hnp : namePrefixed t archiveFlags = true := by
    simp [namePrefixed, hob, hflag]
  have hfs1 : 1 ≤ file.fileSize := by omega
  have hr1 : readAt src file.dataOffset 1 =
      some ((src.drop file.dataOffset).take 1) := by
    simp only [readAt, if_pos (by omega : file.dataOffset + 1 ≤ src.length)]
  have hr2 : readAt src (file.dataOffset + 1) L =
      some ((src.drop (file.dataOffset + 1)).take L) := by
    simp only [readAt,
      if_pos (by omega : file.dataOffset + 1 + L ≤ src.length)]
  have hnle : ¬ file.fileSize ≤ L := by omega
  have hpa : prefixAdjust t archiveFlags file.fileSize src file.dataOffset =
      some (some (file.fileSize - (L + 1), file.dataOffset + 1 + L)) := by
    simp only [prefixAdjust, if_pos hnp, hr1, hL, hr2, if_neg hnle]
  by_cases hc : t = TYPE_SKYRIMSE ∧ Archive.compressed t archiveFlags file = true
  · have h4 := hse hc
    have hr3 : readAt src (file.dataOffset + 1 + L) 4 =
        some ((src.drop (file.dataOffset + 1 + L)).take 4) := by
      simp only [readAt,
        if_pos (by omega : file.dataOffset + 1 + L + 4 ≤ src.length)]
    have hsub : subWrap 64 (file.fileSize - (L + 1)) 4 =
        file.fileSize - (L + 1) - 4 := by
      have hp : (2 : Nat) ^ 64 = 18446744073709551616 := by norm_num
      have hq : (2 : Nat) ^ 32 = 4294967296 := by norm_num
      rw [hq] at hfs
      simp only [subWrap, hp]
      omega
    have hr4 : readAt src (file.dataOffset + 1 + L + 4)
        (file.fileSize - (L + 1) - 4) =
        some ((src.drop (file.dataOffset + 1 + L + 4)).take
          (file.fileSize - (L + 1) - 4)) := by
      simp only [readAt, if_pos (by omega :
        file.dataOffset + 1 + L + 4 + (file.fileSize - (L + 1) - 4) ≤
          src.length)]
    refine ⟨⟨file.name, file.fileSize, file.dataOffset,
      leVal ((src.drop (file.dataOffset + 1 + L)).take 4),
      file.compressToggled, file.texHeader, file.texChunks⟩, ?_⟩
    have e1 : file.fileSize - (L + 1) - 4 = file.fileSize - (1 + L) - 4 := by
      omega
    rw [e1] at hr4
    have e2 : file.dataOffset + 1 + L + 4 + (file.fileSize - (1 + L) - 4) =
        file.dataOffset + file.fileSize := by omega
    simp only [readFilesOne, hba2, Bool.false_eq_true, not_false_eq_true,
      if_true, hpa, if_pos hc, hr3, hsub, hchunks, List.isEmpty_nil, e1,
      hr4, e2]
  · have e1 : file.fileSize - (L + 1) = file.fileSize - (1 + L) := by omega
    have hr3 : readAt src (file.dataOffset + 1 + L) (file.fileSize - (1 + L)) =
        some ((src.drop (file.dataOffset + 1 + L)).take
          (file.fileSize - (1 + L))) := by
      simp only [readAt, if_pos (by omega :
        file.dataOffset + 1 + L + (file.fileSize - (1 + L)) ≤ src.length)]
    refine ⟨file, ?_⟩
    have e2 : file.dataOffset + 1 + L + (file.fileSize - (1 + L)) =
        file.dataOffset + file.fileSize := by omega
    simp only [readFilesOne, hba2, Bool.false_eq_true, not_false_eq_true,
      if_true, hpa, if_neg hc, hchunks, List.isEmpty_nil, e1,
      Nat.sub_zero, Nat.add_zero, hr3, e2]

/-- Witness for C6 (amended): a Fallout 3 name-prefixed raw file of
stored size 10 with a 2-byte name prefix enqueues a 7-byte payload. -/
theorem c6_name_prefix_amended_witness :
    ∃ file',
      readFilesOne TYPE_FALLOUT3 FLAG_NAMEPREFIXED
        ⟨"y.bin", 10, 0, 0, false, FO4TextureHeader.init, []⟩
        ([2, 65, 66] ++ [1, 2, 3, 4, 5, 6, 7]) (fun _ => none)
        (fun _ _ => []) =
        ReadOneResult.enqueued
          (BFile.fileSize ⟨"y.bin", 10, 0, 0, false, FO4TextureHeader.init, []⟩ -
            (1 + 2) -
            (if TYPE_FALLOUT3 = TYPE_SKYRIMSE ∧
                Archive.compressed TYPE_FALLOUT3 FLAG_NAMEPREFIXED
                  ⟨"y.bin", 10, 0, 0, false, FO4TextureHeader.init, []⟩ = true
              then 4 else 0))
          ((([2, 65, 66] ++ [1, 2, 3, 4, 5, 6, 7]).drop
            (BFile.dataOffset ⟨"y.bin", 10, 0, 0, false,
              FO4TextureHeader.init, []⟩ + 1 + 2 +
              (if TYPE_FALLOUT3 = TYPE_SKYRIMSE ∧
                  Archive.compressed TYPE_FALLOUT3 FLAG_NAMEPREFIXED
                    ⟨"y.bin", 10, 0, 0, false, FO4TextureHeader.init, []⟩ =
                    true
                then 4 else 0))).take
            (BFile.fileSize ⟨"y.bin", 10, 0, 0, false,
              FO4TextureHeader.init, []⟩ - (1 + 2) -
              (if TYPE_FALLOUT3 = TYPE_SKYRIMSE ∧
                  Archive.compressed TYPE_FALLOUT3 FLAG_NAMEPREFIXED
                    ⟨"y.bin", 10, 0, 0, false, FO4TextureHeader.init, []⟩ =
                    true
                then 4 else 0)))
          file'
          (BFile.dataOffset ⟨"y.bin", 10, 0, 0, false,
            FO4TextureHeader.init, []⟩ +
           BFile.fileSize ⟨"y.bin", 10, 0, 0, false,
            FO4TextureHeader.init, []⟩) :=
  c6_name_prefix_amended TYPE_FALLOUT3 FLAG_NAMEPREFIXED
    ⟨"y.bin", 10, 0, 0, false, FO4TextureHeader.init, []⟩
    ([2, 65, 66] ++ [1, 2, 3, 4, 5, 6, 7]) (fun _ => none) (fun _ _ => []) 2
    (by decide) (by decide) (by decide) rfl (by decide) (by decide) (by decide)
    (by decide) (by decide)

/-- `read` surfaces any header parse failure as `ERROR_INVALIDDATA`. -/
theorem Archive.read_of_header_error (hash : String → Nat) (testHashes : Bool)
    (bytes : List Nat) (e : BsaErr)
    (h : readHeader ⟨bytes, 0⟩ = .error e) :
    Archive.read hash bytes testHashes = (ERROR_INVALIDDATA, rootFolder hash) := by
  unfold Archive.read
  simp only [Parse.bind_apply, h]

/-- An unrecognised magic number makes `readHeader` throw. -/
theorem readHeader_error_bad_magic (bs : List Nat) (magic : Nat) (s₁ : IStream)
    (hfid : readU32 ⟨bs, 0⟩ = .ok (magic, s₁))
    (hbad : magic ≠ 0x00415342 ∧ magic ≠ 0x58445442 ∧ magic ≠ 0x00000100) :
    readHeader ⟨bs, 0⟩ = .error BsaErr.dataInvalid := by
  unfold readHeader
  simp only [Parse.bind_apply, hfid]
  rw [Parse.ite_apply, if_pos hbad]
  rfl

/-- A recognised non-Morrowind magic with an unrecognised version id
makes `readHeader` throw (out of `typeFromID`). -/
theorem readHeader_error_bad_version (bs : List Nat) (magic v : Nat)
    (s₁ s₂ : IStream) (e : BsaErr)
    (hfid : readU32 ⟨bs, 0⟩ = .ok (magic, s₁))
    (hrec : ¬ (magic ≠ 0x00415342 ∧ magic ≠ 0x58445442 ∧ magic ≠ 0x00000100))
    (hne : magic ≠ 0x00000100)
    (hver : readU32 s₁ = .ok (v, s₂))
    (htv : typeFromID v = .error e) :
    readHeader ⟨bs, 0⟩ = .error e := by
  unfold readHeader
  simp only [Parse.bind_apply, hfid]
  rw [Parse.ite_apply, if_neg hrec, Parse.ite_apply, if_pos hne]
  simp only [Parse.bind_apply, hver, htv]

/-- C1: for every archive opened by `read`, the 4-byte version id is
mapped to the archive type exactly per the table (0x100 → Morrowind,
0x67 → Oblivion, 0x68 → Fallout3/NV/SkyrimLE, 0x69 → SkyrimSE,
0x01 → Fallout4, 0x02 → Starfield, 0x03 → Starfield-LZ4-Texture), and
any other version id, or any magic number other than the three
recognised ones, makes `read` fail with `ERROR_INVALIDDATA`. -/
theorem c1_version_dispatch (hash : String → Nat) (testHashes : Bool)
    (magic v : Nat) (rest : List Nat) (hm : magic < 2 ^ 32) (hv : v < 2 ^ 32) :
    (magic ≠ 0x00415342 ∧ magic ≠ 0x58445442 ∧ magic ≠ 0x00000100 →
      (Archive.read hash (leBytes 4 magic ++ (leBytes 4 v ++ rest))
        testHashes).1 = ERROR_INVALIDDATA) ∧
    ((magic = 0x00415342 ∨ magic = 0x58445442) →
      v ∉ ([0x100, 0x67, 0x68, 0x69, 0x01, 0x02, 0x03] : List Nat) →
      (Archive.read hash (leBytes 4 magic ++ (leBytes 4 v ++ rest))
        testHashes).1 = ERROR_INVALIDDATA) ∧
    (∀ hd s',
      readHeader ⟨leBytes 4 magic ++ (leBytes 4 v ++ rest), 0⟩ = .ok (hd, s') →
      (magic = 0x00000100 → hd.type = TYPE_MORROWIND) ∧
      ((magic = 0x00415342 ∨ magic = 0x58445442) →
        (v = 0x100 → hd.type = TYPE_MORROWIND) ∧
        (v = 0x67 → hd.type = TYPE_OBLIVION) ∧
        (v = 0x68 → hd.type = TYPE_FALLOUT3) ∧
        (v = 0x69 → hd.type = TYPE_SKYRIMSE) ∧
        (v = 0x01 → hd.type = TYPE_FALLOUT4) ∧
        (v = 0x02 → hd.type = TYPE_STARFIELD) ∧
        (v = 0x03 → hd.type = TYPE_STARFIELD_LZ4_TEXTURE))) := by
  have hlen4 : (leBytes 4 magic).length = 4 := leBytes_length 4 magic
  have hlenv : (leBytes 4 v).length = 4 := leBytes_length 4 v
  have hlenall :
      (leBytes 4 magic ++ (leBytes 4 v ++ rest)).length = 8 + rest.length := by
    simp [hlen4, hlenv]; omega
  have hmagic_read :
      readU32 ⟨leBytes 4 magic ++ (leBytes 4 v ++ rest), 0⟩ =
        .ok (magic, ⟨leBytes 4 magic ++ (leBytes 4 v ++ rest), 4⟩) := by
    refine readU32_ok _ 0 magic hm (by omega) ?_
    rw [List.drop_zero, List.take_left' hlen4]
  have hversion_read :
      readU32 ⟨leBytes 4 magic ++ (leBytes 4 v ++ rest), 4⟩ =
        .ok (v, ⟨leBytes 4 magic ++ (leBytes 4 v ++ rest), 8⟩) := by
    have h8 : (4 : Nat) + 4 = 8 := rfl
    have := readU32_ok (leBytes 4 magic ++ (leBytes 4 v ++ rest)) 4 v hv
      (by omega) ?_
    · rw [h8] at this; exact this
    · rw [List.drop_left' hlen4, List.take_left' hlenv]
  refine ⟨?_, ?_, ?_⟩
  · intro hbad
    rw [Archive.read_of_header_error hash testHashes _ BsaErr.dataInvalid
      (readHeader_error_bad_magic _ magic _ hmagic_read hbad)]
  · intro hrec hbadv
    simp only [List.mem_cons, List.not_mem_nil, or_false, not_or] at hbadv
    obtain ⟨b1, b2, b3, b4, b5, b6, b7⟩ := hbadv
    have htv : typeFromID v = .error BsaErr.dataInvalid := by
      simp [typeFromID, b1, b2, b3, b4, b5, b6, b7]
    have hne : magic ≠ 0x00000100 := by rcases hrec with h | h <;> omega
    have hnotbad :
        ¬ (magic ≠ 0x00415342 ∧ magic ≠ 0x58445442 ∧ magic ≠ 0x00000100) := by
      rcases hrec with h | h <;> simp [h]
    rw [Archive.read_of_header_error hash testHashes _ BsaErr.dataInvalid
      (readHeader_error_bad_version _ magic v _ _ _ hmagic_read hnotbad hne
        hversion_read htv)]
  · intro hd s' hok
    obtain ⟨fid, s₁, hfid, hcases⟩ := readHeader_ok_cases _ _ _ hok
    rw [hmagic_read] at hfid
    have hfm : fid = magic ∧ s₁ = ⟨leBytes 4 magic ++ (leBytes 4 v ++ rest), 4⟩ := by
      have := Except.ok.inj hfid
      exact ⟨(Prod.mk.injEq .. ▸ this).1.symm, (Prod.mk.injEq .. ▸ this).2.symm⟩
    obtain ⟨hfm1, hfm2⟩ := hfm
    subst hfm1; subst hfm2
    constructor
    · intro hmor
      rcases hcases with ⟨-, hty, -⟩ | ⟨hne, -⟩
      · exact hty
      · exact absurd hmor hne
    · intro hrec
      rcases hcases with ⟨h100, -, -⟩ | ⟨-, v', s₂', hv', htv', -⟩
      · rcases hrec with h | h <;> omega
      · rw [hversion_read] at hv'
        have hvv : v' = v := by
          have := Except.ok.inj hv'
          exact (Prod.mk.injEq .. ▸ this).1.symm
        subst hvv
        refine ⟨?_, ?_, ?_, ?_, ?_, ?_, ?_⟩ <;> intro hveq <;> subst hveq
        · rw [show typeFromID 0x100 = .ok TYPE_MORROWIND from rfl] at htv'
          exact (Except.ok.inj htv').symm
        · rw [show typeFromID 0x67 = .ok TYPE_OBLIVION from rfl] at htv'
          exact (Except.ok.inj htv').symm
        · rw [show typeFromID 0x68 = .ok TYPE_FALLOUT3 from rfl] at htv'
          exact (Except.ok.inj htv').symm
        · rw [show typeFromID 0x69 = .ok TYPE_SKYRIMSE from rfl] at htv'
          exact (Except.ok.inj htv').symm
        · rw [show typeFromID 0x01 = .ok TYPE_FALLOUT4 from rfl] at htv'
          exact (Except.ok.inj htv').symm
        · rw [show typeFromID 0x02 = .ok TYPE_STARFIELD from rfl] at htv'
          exact (Except.ok.inj htv').symm
        · rw [show typeFromID 0x03 = .ok TYPE_STARFIELD_LZ4_TEXTURE from rfl]
            at htv'
          exact (Except.ok.inj htv').symm

/-- Witness for C1: an unrecognised magic number fails, a `BSA\0`
archive with version id 0x55 fails, and a `BTDX` archive with version
id 0x01 parses to the Fallout 4 type. -/
theorem c1_version_dispatch_witness :
    (Archive.read (fun _ => 0)
      (leBytes 4 0x12345678 ++ (leBytes 4 0x55 ++ [])) false).1 =
      ERROR_INVALIDDATA ∧
    (Archive.read (fun _ => 0)
      (leBytes 4 0x00415342 ++ (leBytes 4 0x55 ++ [])) false).1 =
      ERROR_INVALIDDATA ∧
    Header.type ⟨0x58445442, [71, 78, 82, 76], TYPE_FALLOUT4, 0, 3, 0, 0, 0,
      0, 0, 0⟩ = TYPE_FALLOUT4 :=
  ⟨(c1_version_dispatch (fun _ => 0) false 0x12345678 0x55 [] (by decide)
      (by decide)).1 (by decide),
   (c1_version_dispatch (fun _ => 0) false 0x00415342 0x55 [] (by decide)
      (by decide)).2.1 (Or.inl rfl) (by decide),
   (((c1_version_dispatch (fun _ => 0) false 0x58445442 0x01
      ([71, 78, 82, 76] ++ leBytes 4 0 ++ leBytes 8 0) (by decide)
      (by decide)).2.2
      ⟨0x58445442, [71, 78, 82, 76], TYPE_FALLOUT4, 0, 3, 0, 0, 0, 0, 0, 0⟩
      ⟨leBytes 4 0x58445442 ++ (leBytes 4 0x01 ++
        ([71, 78, 82, 76] ++ leBytes 4 0 ++ leBytes 8 0)), 24⟩
      (by decide)).2 (Or.inr rfl)).2.2.2.2.1 rfl⟩

/-! ## Layout characterisation of the writer passes

Each pass of `Archive::write` is characterised by an explicit layout
function: the list of `(position, bytes)` writes it appends and the
folder/file states it records.  The claim theorem compares the
placeholder pass and the rewrite pass through these. -/

/-- `(position, length)` shape of a write log. -/
def logShape (l : List (Nat × List Nat)) : List (Nat × Nat) :=
  l.map (fun e => (e.1, e.2.length))

theorem folderRecordBytes_length (f : WFolder) :
    (folderRecordBytes f).length = 16 := by
  simp [folderRecordBytes, leBytes_length]

theorem fileRecordBytes_length (fl : WFile) :
    (fileRecordBytes fl).length = 16 := by
  simp [fileRecordBytes, leBytes_length]

theorem bstringBytes_length (s : String) :
    (bstringBytes s).length = 1 + s.length := by
  have h : s.toList.length = s.length := rfl
  simp [bstringBytes, h]
  omega

theorem zstringBytes_length (s : String) :
    (zstringBytes s).length = s.length + 1 := by
  have h : s.toList.length = s.length := rfl
  simp [zstringBytes, h]

/-- The byte size of one folder's name-and-file-records block
(BString full path plus 16 bytes per file). -/
def dataBlockSize (f : WFolder) : Nat :=
  1 + f.fullPath.length + 16 * f.files.length

/-- The writes of a folder-headers pass starting at `p`. -/
def headerEntries : List WFolder → Nat → List (Nat × List Nat)
  | [], _ => []
  | f :: fs, p => (p, folderRecordBytes f) :: headerEntries fs (p + 16)

/-- The writes of the file records of one folder starting at `p`. -/
def fileRecEntries : List WFile → Nat → List (Nat × List Nat)
  | [], _ => []
  | fl :: fls, p => (p, fileRecordBytes fl) :: fileRecEntries fls (p + 16)

/-- The writes of a folder-data pass starting at `p`. -/
def dataEntries : List WFolder → Nat → List (Nat × List Nat)
  | [], _ => []
  | f :: fs, p =>
    (p, bstringBytes f.fullPath) ::
      (fileRecEntries f.files (p + (1 + f.fullPath.length)) ++
       dataEntries fs (p + dataBlockSize f))

/-- The folder states after a data pass starting at `p`: each folder's
`m_OffsetWrite` becomes its name block position plus
`fileNamesLength`. -/
def updateOffsets (fnl : Nat) : List WFolder → Nat → List WFolder
  | [], _ => []
  | f :: fs, p =>
    ⟨f.nameHash, f.fullPath, f.files, p + fnl⟩ ::
      updateOffsets fnl fs (p + dataBlockSize f)

/-- The name block positions of the folders in a data pass starting at
`p`. -/
def blockPositions : List WFolder → Nat → List Nat
  | [], _ => []
  | f :: fs, p => p :: blockPositions fs (p + dataBlockSize f)

/-- The writes of the file-name table starting at `p`. -/
def nameEntries : List String → Nat → List (Nat × List Nat)
  | [], _ => []
  | nm :: nms, p => (p, zstringBytes nm) :: nameEntries nms (p + (nm.length + 1))

/-- Total payload byte count of one folder. -/
def payloadSize (f : WFolder) : Nat :=
  (f.files.map (fun fl => fl.payload.length)).sum

/-- The file states after the file-data pass starting at `p`: each
file's `m_OffsetWrite` becomes the position its payload was copied
to. -/
def updateFileOffsets : List WFile → Nat → List WFile
  | [], _ => []
  | fl :: fls, p =>
    ⟨fl.hash, fl.name, fl.sizeWord, fl.payload, p⟩ ::
      updateFileOffsets fls (p + fl.payload.length)

/-- The payload positions of one folder's files starting at `p`. -/
def payloadPositionsF : List WFile → Nat → List Nat
  | [], _ => []
  | fl :: fls, p => p :: payloadPositionsF fls (p + fl.payload.length)

/-- The folder states after the file-data pass starting at `p`. -/
def updateDataFolders : List WFolder → Nat → List WFolder
  | [], _ => []
  | f :: fs, p =>
    ⟨f.nameHash, f.fullPath, updateFileOffsets f.files p, f.offsetWrite⟩ ::
      updateDataFolders fs (p + payloadSize f)

/-- The payload writes of the file-data pass starting at `p`. -/
def payloadEntriesF : List WFile → Nat → List (Nat × List Nat)
  | [], _ => []
  | fl :: fls, p => (p, fl.payload) :: payloadEntriesF fls (p + fl.payload.length)

/-- The payload writes over all folders starting at `p`. -/
def payloadEntries : List WFolder → Nat → List (Nat × List Nat)
  | [], _ => []
  | f :: fs, p => payloadEntriesF f.files p ++ payloadEntries fs (p + payloadSize f)

theorem writeFolderHeaders_spec (fs : List WFolder) (w : OStream) :
    writeFolderHeaders fs w =
      ⟨w.pos + 16 * fs.length, w.log ++ headerEntries fs w.pos⟩ := by
  induction fs generalizing w with
  | nil => simp [writeFolderHeaders, headerEntries]
  | cons f fs ih =>
    simp only [writeFolderHeaders, List.foldl_cons] at *
    rw [ih]
    simp [OStream.emit, headerEntries, folderRecordBytes_length]
    omega

theorem fileRecords_fold_spec (fls : List WFile) (w : OStream) :
    fls.foldl (fun w fl => w.emit (fileRecordBytes fl)) w =
      ⟨w.pos + 16 * fls.length, w.log ++ fileRecEntries fls w.pos⟩ := by
  induction fls generalizing w with
  | nil => simp [fileRecEntries]
  | cons fl fls ih =>
    simp only [List.foldl_cons]
    rw [ih]
    simp [OStream.emit, fileRecEntries, fileRecordBytes_length]
    omega

theorem writeOneFolderData_spec (fnl : Nat) (f : WFolder) (w : OStream) :
    writeOneFolderData fnl f w =
      (⟨f.nameHash, f.fullPath, f.files, w.pos + fnl⟩,
       ⟨w.pos + dataBlockSize f,
        w.log ++ ((w.pos, bstringBytes f.fullPath) ::
          fileRecEntries f.files (w.pos + (1 + f.fullPath.length)))⟩) := by
  simp only [writeOneFolderData]
  rw [fileRecords_fold_spec]
  simp [OStream.emit, bstringBytes_length, dataBlockSize]
  omega

theorem writeFolderData_go (fnl : Nat) (fs : List WFolder)
    (acc : List WFolder) (w : OStream) :
    fs.foldl (fun acc f =>
      let r := writeOneFolderData fnl f acc.2
      (acc.1 ++ [r.1], r.2)) (acc, w) =
      (acc ++ updateOffsets fnl fs w.pos,
       ⟨w.pos + (fs.map dataBlockSize).sum, w.log ++ dataEntries fs w.pos⟩) := by
  induction fs generalizing acc w with
  | nil => simp [updateOffsets, dataEntries]
  | cons f fs ih =>
    simp only [List.foldl_cons]
    rw [writeOneFolderData_spec]
    rw [ih]
    simp [updateOffsets, dataEntries]
    omega

theorem writeFolderData_spec (fnl : Nat) (fs : List WFolder) (w : OStream) :
    writeFolderData fnl fs w =
      (updateOffsets fnl fs w.pos,
       ⟨w.pos + (fs.map dataBlockSize).sum, w.log ++ dataEntries fs w.pos⟩) := by
  rw [writeFolderData, writeFolderData_go]
  simp

theorem writeFileNames_spec (names : List String) (w : OStream) :
    writeFileNames names w =
      ⟨w.pos + (names.map (fun nm => nm.length + 1)).sum,
       w.log ++ nameEntries names w.pos⟩ := by
  induction names generalizing w with
  | nil => simp [writeFileNames, nameEntries]
  | cons nm nms ih =>
    simp only [writeFileNames, List.foldl_cons] at *
    rw [ih]
    simp [OStream.emit, nameEntries, zstringBytes_length]
    omega

theorem fileData_fold_spec (fls : List WFile) (acc : List WFile) (w : OStream) :
    fls.foldl (fun acc2 fl =>
      let rr := writeOneFileData fl acc2.2
      (acc2.1 ++ [rr.1], rr.2)) (acc, w) =
      (acc ++ updateFileOffsets fls w.pos,
       ⟨w.pos + (fls.map (fun fl => fl.payload.length)).sum,
        w.log ++ payloadEntriesF fls w.pos⟩) := by
  induction fls generalizing acc w with
  | nil => simp [updateFileOffsets, payloadEntriesF]
  | cons fl fls ih =>
    simp only [List.foldl_cons]
    rw [show writeOneFileData fl w =
      (⟨fl.hash, fl.name, fl.sizeWord, fl.payload, w.pos⟩,
       ⟨w.pos + fl.payload.length, w.log ++ [(w.pos, fl.payload)]⟩) from rfl]
    rw [ih]
    simp [updateFileOffsets, payloadEntriesF]
    omega

theorem writeFileData_go (fs : List WFolder) (acc : List WFolder)
    (w : OStream) :
    fs.foldl (fun acc f =>
      let r := f.files.foldl (fun acc2 fl =>
        let rr := writeOneFileData fl acc2.2
        (acc2.1 ++ [rr.1], rr.2)) (([] : List WFile), acc.2)
      (acc.1 ++ [⟨f.nameHash, f.fullPath, r.1, f.offsetWrite⟩], r.2)) (acc, w) =
      (acc ++ updateDataFolders fs w.pos,
       ⟨w.pos + (fs.map payloadSize).sum, w.log ++ payloadEntries fs w.pos⟩) := by
  induction fs generalizing acc w with
  | nil => simp [updateDataFolders, payloadEntries]
  | cons f fs ih =>
    simp only [List.foldl_cons]
    rw [fileData_fold_spec]
    rw [ih]
    simp [updateDataFolders, payloadEntries, payloadSize]
    omega

theorem writeFileData_spec (fs : List WFolder) (w : OStream) :
    writeFileData fs w =
      (updateDataFolders fs w.pos,
       ⟨w.pos + (fs.map payloadSize).sum, w.log ++ payloadEntries fs w.pos⟩) := by
  rw [writeFileData, writeFileData_go]
  simp

theorem archiveHeaderBytes_length (t : ArchiveType) (a b c d e f : Nat) :
    (archiveHeaderBytes t a b c d e f).length = 36 := by
  simp [archiveHeaderBytes, leBytes_length]

/-- The payload positions of all folders' files starting at `p`. -/
def filePayloadPositions : List WFolder → Nat → List (List Nat)
  | [], _ => []
  | f :: fs, p =>
    payloadPositionsF f.files p :: filePayloadPositions fs (p + payloadSize f)

theorem updateOffsets_files (fnl : Nat) (fs : List WFolder) (p : Nat) :
    (updateOffsets fnl fs p).map (fun f => f.files) = fs.map (fun f => f.files) := by
  induction fs generalizing p with
  | nil => rfl
  | cons f fs ih => simp [updateOffsets, ih]

theorem updateOffsets_paths (fnl : Nat) (fs : List WFolder) (p : Nat) :
    (updateOffsets fnl fs p).map (fun f => f.fullPath) =
      fs.map (fun f => f.fullPath) := by
  induction fs generalizing p with
  | nil => rfl
  | cons f fs ih => simp [updateOffsets, ih]

theorem updateOffsets_offsets (fnl : Nat) (fs : List WFolder) (p : Nat) :
    (updateOffsets fnl fs p).map (fun f => f.offsetWrite) =
      (blockPositions fs p).map (fun q => q + fnl) := by
  induction fs generalizing p with
  | nil => rfl
  | cons f fs ih => simp [updateOffsets, blockPositions, ih]

theorem updateFileOffsets_length (fls : List WFile) (p : Nat) :
    (updateFileOffsets fls p).length = fls.length := by
  induction fls generalizing p with
  | nil => rfl
  | cons fl fls ih => simp [updateFileOffsets, ih]

theorem updateFileOffsets_offsets (fls : List WFile) (p : Nat) :
    (updateFileOffsets fls p).map (fun fl => fl.offsetWrite) =
      payloadPositionsF fls p := by
  induction fls generalizing p with
  | nil => rfl
  | cons fl fls ih => simp [updateFileOffsets, payloadPositionsF, ih]

theorem updateDataFolders_offsets (fs : List WFolder) (p : Nat) :
    (updateDataFolders fs p).map (fun f => f.offsetWrite) =
      fs.map (fun f => f.offsetWrite) := by
  induction fs generalizing p with
  | nil => rfl
  | cons f fs ih => simp [updateDataFolders, ih]

theorem updateDataFolders_fileOffsets (fs : List WFolder) (p : Nat) :
    (updateDataFolders fs p).map (fun f => f.files.map (fun fl => fl.offsetWrite)) =
      filePayloadPositions fs p := by
  induction fs generalizing p with
  | nil => rfl
  | cons f fs ih =>
    simp [updateDataFolders, filePayloadPositions, ih, updateFileOffsets_offsets]

theorem filePayloadPositions_congr (fs fs' : List WFolder) (p : Nat)
    (h : fs.map (fun f => f.files) = fs'.map (fun f => f.files)) :
    filePayloadPositions fs p = filePayloadPositions fs' p := by
  induction fs generalizing fs' p with
  | nil => cases fs' with
    | nil => rfl
    | cons g gs => simp at h
  | cons f fs ih =>
    cases fs' with
    | nil => simp at h
    | cons g gs =>
      simp only [List.map_cons, List.cons.injEq] at h
      simp [filePayloadPositions, h.1, ih gs _ h.2, payloadSize]

/-- The layout measure of a folder: its full-path length and file
count determine the sizes of all of its records. -/
def layoutMeasure (fs : List WFolder) : List (Nat × Nat) :=
  fs.map (fun f => (f.fullPath.length, f.files.length))

theorem updateOffsets_measure (fnl : Nat) (fs : List WFolder) (p : Nat) :
    layoutMeasure (updateOffsets fnl fs p) = layoutMeasure fs := by
  induction fs generalizing p with
  | nil => rfl
  | cons f fs ih =>
    have := ih (p + dataBlockSize f)
    simp only [layoutMeasure, List.map_cons] at this ⊢
    simp [updateOffsets, this]

theorem updateDataFolders_measure (fs : List WFolder) (p : Nat) :
    layoutMeasure (updateDataFolders fs p) = layoutMeasure fs := by
  induction fs generalizing p with
  | nil => rfl
  | cons f fs ih =>
    have := ih (p + payloadSize f)
    simp only [layoutMeasure, List.map_cons] at this ⊢
    simp [updateDataFolders, updateFileOffsets_length, this]

theorem headerEntries_shape (fs fs' : List WFolder) (p : Nat)
    (h : fs.length = fs'.length) :
    logShape (headerEntries fs p) = logShape (headerEntries fs' p) := by
  induction fs generalizing fs' p with
  | nil => cases fs' with
    | nil => rfl
    | cons g gs => simp at h
  | cons f fs ih =>
    cases fs' with
    | nil => simp at h
    | cons g gs =>
      simp only [List.length_cons, Nat.add_right_cancel_iff] at h
      have hih := ih gs (p + 16) h
      simp only [logShape] at hih
      simp [headerEntries, logShape, folderRecordBytes_length, hih]

theorem fileRecEntries_shape (fls fls' : List WFile) (p : Nat)
    (h : fls.length = fls'.length) :
    logShape (fileRecEntries fls p) = logShape (fileRecEntries fls' p) := by
  induction fls generalizing fls' p with
  | nil => cases fls' with
    | nil => rfl
    | cons g gs => simp at h
  | cons fl fls ih =>
    cases fls' with
    | nil => simp at h
    | cons g gs =>
      simp only [List.length_cons, Nat.add_right_cancel_iff] at h
      have hih := ih gs (p + 16) h
      simp only [logShape] at hih
      simp [fileRecEntries, logShape, fileRecordBytes_length, hih]

theorem dataEntries_shape (fs fs' : List WFolder) (p : Nat)
    (h : layoutMeasure fs = layoutMeasure fs') :
    logShape (dataEntries fs p) = logShape (dataEntries fs' p) := by
  induction fs generalizing fs' p with
  | nil => cases fs' with
    | nil => rfl
    | cons g gs => simp [layoutMeasure] at h
  | cons f fs ih =>
    cases fs' with
    | nil => simp [layoutMeasure] at h
    | cons g gs =>
      simp only [layoutMeasure, List.map_cons, List.cons.injEq,
        Prod.mk.injEq] at h
      obtain ⟨⟨hp, hc⟩, htail⟩ := h
      have hfr : logShape (fileRecEntries f.files (p + (1 + f.fullPath.length))) =
          logShape (fileRecEntries g.files (p + (1 + g.fullPath.length))) := by
        rw [hp]
        exact fileRecEntries_shape f.files g.files _ hc
      simp only [dataEntries, logShape, List.map_cons, List.map_append,
        bstringBytes_length, dataBlockSize, hp, hc] at *
      rw [hfr]
      have := ih gs (p + (1 + g.fullPath.length + 16 * g.files.length)) htail
      simp only [logShape] at this
      rw [this]

/-- C7: after `write` completes, the folder and file records starting
at offset 0x24 in the output have been rewritten by a second pass at
the same positions and with the same record sizes as the placeholder
pass, and they contain the real offsets recorded during the name/data
passes: each folder record's offset is the position of its name block
plus the file-name-table length, and each file record's offset is the
position its payload was copied to. -/
theorem c7_two_pass_rewrite (t : ArchiveType) (archiveFlags : Nat)
    (folders : List WFolder) :
    let fileNames := folders.flatMap (fun f => f.files.map (fun fl => fl.name))
    let fnl := (fileNames.map String.length).sum
    let dataStart := 0x24 + 16 * folders.length
    let namesStart := dataStart + (folders.map dataBlockSize).sum
    let namesEnd := namesStart + (fileNames.map (fun nm => nm.length + 1)).sum
    let foldersA := updateOffsets fnl folders dataStart
    let foldersB := updateDataFolders foldersA namesEnd
    (Archive.write t archiveFlags folders).1.log =
      (0, archiveHeaderBytes t archiveFlags (determineFileFlags fileNames)
        folders.length ((folders.map (fun f => f.files.length)).sum)
        ((folders.map (fun f => f.fullPath.length)).sum) fnl) ::
      (headerEntries folders 0x24 ++ (dataEntries folders dataStart ++
       (nameEntries fileNames namesStart ++ (payloadEntries foldersA namesEnd ++
       (headerEntries foldersB 0x24 ++ dataEntries foldersB dataStart))))) ∧
    logShape (headerEntries foldersB 0x24) =
      logShape (headerEntries folders 0x24) ∧
    logShape (dataEntries foldersB dataStart) =
      logShape (dataEntries folders dataStart) ∧
    foldersB.map (fun f => f.offsetWrite) =
      (blockPositions folders dataStart).map (fun q => q + fnl) ∧
    foldersB.map (fun f => f.files.map (fun fl => fl.offsetWrite)) =
      filePayloadPositions folders namesEnd := by
  intro fileNames fnl dataStart namesStart namesEnd foldersA foldersB
  have hmeasure : layoutMeasure foldersB = layoutMeasure folders := by
    show layoutMeasure (updateDataFolders foldersA namesEnd) = _
    rw [updateDataFolders_measure]
    show layoutMeasure (updateOffsets fnl folders dataStart) = _
    rw [updateOffsets_measure]
  have hlenB : foldersB.length = folders.length := by
    have := congrArg List.length hmeasure
    simpa [layoutMeasure] using this
  refine ⟨?_, ?_, ?_, ?_, ?_⟩
  · show (Archive.write t archiveFlags folders).1.log = _
    unfold Archive.write
    simp only []
    rw [writeFolderHeaders_spec, writeFolderData_spec, writeFileNames_spec,
      writeFileData_spec, writeFolderHeaders_spec, writeFolderData_spec]
    simp only [OStream.emit, OStream.seekp, archiveHeaderBytes_length,
      Nat.zero_add, List.nil_append, List.append_assoc, List.cons_append,
      List.nil_append]
    rw [show (updateDataFolders (updateOffsets fnl folders
        (36 + 16 * folders.length))
        (36 + 16 * folders.length + (folders.map dataBlockSize).sum +
          (fileNames.map (fun nm => nm.length + 1)).sum)).length =
        folders.length from hlenB]
  · exact headerEntries_shape _ _ _ hlenB
  · exact dataEntries_shape _ _ _ hmeasure
  · show (updateDataFolders foldersA namesEnd).map (fun f => f.offsetWrite) = _
    rw [updateDataFolders_offsets]
    show (updateOffsets fnl folders dataStart).map (fun f => f.offsetWrite) = _
    rw [updateOffsets_offsets]
  · show (updateDataFolders foldersA namesEnd).map
      (fun f => f.files.map (fun fl => fl.offsetWrite)) = _
    rw [updateDataFolders_fileOffsets]
    exact filePayloadPositions_congr _ _ _ (updateOffsets_files _ _ _)

end BSATK
